import Mathlib

/-!
Verification of the backup-set management core of `game-save-backup-manager`.

The development shallowly embeds the filesystem-facing logic of `main.go`
(`createBackup`, `restoreBackup`, `listBackupsInternal`, `deleteBackups`,
`loadConfig`) and of the platform time accessors
(`file_info_windows.go` and the unnamed non-Windows / syscall-Windows
variants).

Modelling conventions:
* A path is the list of components the Go code joins with `filepath.Join`;
  the program only ever joins a directory with a slash-free file name.
* The filesystem is a finite association list from paths to entries, plus
  three finite sets of paths on which the operating system denies `stat`,
  reads, or writes/removals/creations.  These oracles stand for the
  environmental failures (permissions, races with external processes) that
  the Go error paths react to.  `os.Stat` reports `IsNotExist` only when the
  entry is genuinely absent and the stat itself is not denied, matching
  `os.IsNotExist` returning `false` on permission errors.
* Byte contents are `List Nat`; timestamps are nanosecond counts (`Nat`).
  A write records the caller-supplied current time as the new modification
  time; Win32 creation metadata (`FileInfo.Sys()`) is kept as an optional
  field that overwrites preserve, since the verified claims never depend on
  its value after a write.
* Terminal output that carries decision-relevant information is modelled as
  a list of `Msg` events; purely decorative prints are omitted.
* The interactive prompts are inputs: the already-obtained answer of
  `promptForInput` is an `Option String` (`none` = the prompt itself
  failed), and the current wall-clock time arrives both as the formatted
  string used in generated names and as the numeric timestamp recorded by
  writes.
-/

/-- A filesystem path, as the list of components that `filepath.Join` glues
together. -/
abbrev FPath := List String

/-- A directory entry: a regular file with its byte content, modification
time and optional Win32 creation metadata, or a directory. -/
inductive Entry where
  | file (data : List Nat) (mtime : Nat) (creation : Option Nat)
  | dir (mtime : Nat)
deriving DecidableEq

/-- The modelled filesystem: path-indexed entries plus the sets of paths on
which the operating system denies stat, read, or write/remove/create. -/
structure FS where
  entries : List (FPath × Entry)
  statDenied : List FPath
  readDenied : List FPath
  writeDenied : List FPath
deriving DecidableEq

/-- Outcome of `os.Stat`. -/
inductive StatResult where
  | ok (e : Entry)
  | notExist
  | permErr
deriving DecidableEq

/-- Errors of `os.ReadFile`, distinguishing not-exist from other failures the
way `os.IsNotExist` does. -/
inductive FileErr where
  | notExist
  | permErr
  | isDirErr
deriving DecidableEq

/-- Association-list lookup of a path. -/
def lookupEntry : List (FPath × Entry) → FPath → Option Entry
  | [], _ => none
  | (q, e) :: rest, p => if p = q then some e else lookupEntry rest p

/-- Association-list update: replace the binding of `p`, or append it. -/
def setEntry : List (FPath × Entry) → FPath → Entry → List (FPath × Entry)
  | [], p, e => [(p, e)]
  | (q, e0) :: rest, p, e =>
    if q = p then (p, e) :: rest else (q, e0) :: setEntry rest p e

/-- Association-list removal of every binding of `p`. -/
def eraseEntry : List (FPath × Entry) → FPath → List (FPath × Entry)
  | [], _ => []
  | (q, e) :: rest, p =>
    if q = p then eraseEntry rest p else (q, e) :: eraseEntry rest p

/-- Well-formedness: a real directory tree binds each path at most once. -/
def FS.wf (fs : FS) : Prop := (fs.entries.map Prod.fst).Nodup

/-- Model of `os.Stat`. -/
def statPath (fs : FS) (p : FPath) : StatResult :=
  if p ∈ fs.statDenied then .permErr
  else
    match lookupEntry fs.entries p with
    | some e => .ok e
    | none => .notExist

/-- Model of `os.IsNotExist err` for the error of `os.Stat`: true only on a
genuine not-exist error, not on a permission error. -/
def isNotExist (fs : FS) (p : FPath) : Bool :=
  match statPath fs p with
  | .notExist => true
  | _ => false

/-- Model of `os.ReadFile` with its error cause. -/
def readFileE (fs : FS) (p : FPath) : Except FileErr (List Nat) :=
  if p ∈ fs.readDenied ∨ p ∈ fs.statDenied then .error .permErr
  else
    match lookupEntry fs.entries p with
    | some (.file d _ _) => .ok d
    | some (.dir _) => .error .isDirErr
    | none => .error .notExist

/-- Model of `os.ReadFile` where only success matters. -/
def readFile (fs : FS) (p : FPath) : Option (List Nat) :=
  (readFileE fs p).toOption

/-- Model of `os.WriteFile`: truncating whole-file write that stamps the
current time as modification time.  Creation metadata of an overwritten file
is preserved; failures of the enclosing directory are represented by the
`writeDenied` oracle. -/
def writeFile (fs : FS) (p : FPath) (d : List Nat) (now : Nat) : Option FS :=
  if p ∈ fs.writeDenied then none
  else
    match lookupEntry fs.entries p with
    | some (.dir _) => none
    | some (.file _ _ c) =>
      some { fs with entries := setEntry fs.entries p (.file d now c) }
    | none =>
      some { fs with entries := setEntry fs.entries p (.file d now none) }

/-- Model of `os.Remove`: fails on a missing path or a denied write. -/
def removeFile (fs : FS) (p : FPath) : Option FS :=
  if p ∈ fs.writeDenied then none
  else
    match lookupEntry fs.entries p with
    | none => none
    | some _ => some { fs with entries := eraseEntry fs.entries p }

/-- Model of `os.MkdirAll`: succeeds on an existing directory, fails on a
file in the way or a denied write; intermediate parents are abstracted into
the single created component. -/
def mkdirAll (fs : FS) (p : FPath) (now : Nat) : Option FS :=
  if p ∈ fs.writeDenied then none
  else
    match lookupEntry fs.entries p with
    | some (.dir _) => some fs
    | some (.file _ _ _) => none
    | none => some { fs with entries := setEntry fs.entries p (.dir now) }

/-- Modification time of an entry. -/
def mtimeOf : Entry → Nat
  | .file _ m _ => m
  | .dir m => m

/-- Whether an entry is a directory (`DirEntry.IsDir`). -/
def isDirE : Entry → Bool
  | .dir _ => true
  | _ => false

/-- Translation of `getFileCreationTime` from `file_info_windows.go` and from
the unnamed non-Windows variant: both simply `os.Stat` the path and return
`info.ModTime()`, failing exactly when the stat fails. -/
def getFileCreationTime (fs : FS) (p : FPath) : Option Nat :=
  match statPath fs p with
  | .ok e => some (mtimeOf e)
  | _ => none

/-- Translation of `getFileCreationTime` from the unnamed syscall Windows
variant: after a successful stat it returns the Win32 creation time when
`FileInfo.Sys()` can be read as `Win32FileAttributeData`, and the
modification time otherwise. -/
def getFileCreationTimeSys (fs : FS) (p : FPath) : Option Nat :=
  match statPath fs p with
  | .ok (.file _ _ (some c)) => some c
  | .ok e => some (mtimeOf e)
  | _ => none

/-- Name of `p` as a direct child of directory `d`, if it is one. -/
def childName (d p : FPath) : Option String :=
  if p.dropLast = d then p.getLast? else none

/-- The direct children of a directory among the filesystem entries. -/
def childrenOf : List (FPath × Entry) → FPath → List (String × Entry)
  | [], _ => []
  | (p, e) :: rest, d =>
    match childName d p with
    | some n => (n, e) :: childrenOf rest d
    | none => childrenOf rest d

/-- Insertion step of the generic insertion sort. -/
def insertBy (le : α → α → Bool) (a : α) : List α → List α
  | [] => [a]
  | b :: l => if le a b then a :: b :: l else b :: insertBy le a l

/-- Generic insertion sort; stands for the library sorts the Go code calls
(`os.ReadDir` name order, `sort.Slice`). -/
def sortBy (le : α → α → Bool) : List α → List α
  | [] => []
  | a :: l => insertBy le a (sortBy le l)

/-- Lexicographic order on character lists, by code point. -/
def charListLe : List Char → List Char → Bool
  | [], _ => true
  | _ :: _, [] => false
  | a :: as, b :: bs => if a = b then charListLe as bs else decide (a.toNat < b.toNat)

/-- Byte-wise file-name order used by `os.ReadDir`. -/
def strLe (s t : String) : Bool := charListLe s.data t.data

/-- Model of `os.ReadDir`: fails when the directory itself cannot be read,
and otherwise lists the direct children sorted by file name. -/
def readDir (fs : FS) (d : FPath) : Option (List (String × Entry)) :=
  if d ∈ fs.readDenied ∨ d ∈ fs.statDenied then none
  else
    match lookupEntry fs.entries d with
    | some (.dir _) => some (sortBy (fun a b => strLe a.1 b.1) (childrenOf fs.entries d))
    | _ => none

/-- Configuration record of `config.json`; paths use the component
representation, with `[]` standing for the empty string. -/
structure Config where
  savePath : FPath
  backupDir : FPath
  autoBackup : Bool
  configFilePath : FPath
deriving DecidableEq

/-- A backup as reconstructed by the directory scan. -/
structure Backup where
  name : String
  path : FPath
  createdAt : Nat
deriving DecidableEq

/-- Whether `suf` is a suffix of `s` (`strings.HasSuffix`), computed on the
character lists so that it evaluates by kernel reduction. -/
def strEndsWith (s suf : String) : Bool :=
  decide (suf.data.length ≤ s.data.length) &&
    (s.data.drop (s.data.length - suf.data.length) == suf.data)

/-- The string without its last `n` characters. -/
def strDropRight (s : String) (n : Nat) : String :=
  ⟨s.data.take (s.data.length - n)⟩

/-- Translation of `strings.TrimSuffix`. -/
def trimSuffix (s suf : String) : String :=
  if strEndsWith s suf then strDropRight s suf.length else s

/-- The decision-relevant terminal messages of the modelled operations. -/
inductive Msg where
  | restoreCancelled
  | autoBackupCreated (name : String)
  | restoreReadFailed
  | restoreWriteFailed
  | restoreOk
  | deleteCancelled
  | noBackupsSelected
  | deleteFailed (name : String)
  | deletedOk (count : Nat)
deriving DecidableEq

/-- Translation of `strings.ToLower`, mapping each character to lower case;
only its values on the one-letter confirmation answers matter here. -/
def strToLower (s : String) : String := ⟨s.data.map Char.toLower⟩

/-- Full path of the backup file of a given name: `filepath.Join(dir, name + ".sav")`. -/
def backupFilePath (d : FPath) (name : String) : FPath := d ++ [name ++ ".sav"]

/-- Whether a candidate backup name is free, exactly as the collision loop of
`createBackup` checks it: `os.Stat` reports not-exist for its `.sav` path. -/
def freeName (fs : FS) (d : FPath) (name : String) : Bool :=
  isNotExist fs (backupFilePath d name)

/-- The collision-resolution loop of `createBackup` (main.go:250-259), with
explicit fuel: try the current name; while taken, retry with the original
base name suffixed by `_counter`, incrementing the counter. -/
def probeAux (fs : FS) (d : FPath) (base : String) : Nat → String → Nat → String
  | 0, name, _ => name
  | fuel + 1, name, counter =>
    if freeName fs d name then name
    else probeAux fs d base fuel (base ++ "_" ++ Nat.repr counter) (counter + 1)

/-- Fuel that provably suffices for the collision loop to find a free name. -/
def probeFuel (fs : FS) : Nat := fs.entries.length + fs.statDenied.length + 1

/-- The name the collision loop settles on, starting from the requested base
with the counter at 1. -/
def resolveBackupName (fs : FS) (d : FPath) (base : String) : String :=
  probeAux fs d base (probeFuel fs) base 1

/-- The name the backup is requested under: the user's input, or
`Backup_<timestamp>` when the input is empty (main.go:245-247). -/
def requestedName (input nowStr : String) : String :=
  if input = "" then "Backup_" ++ nowStr else input

/-- Outcome of `createBackup`, one constructor per exit of the Go function. -/
inductive CreateOutcome where
  | saveFileNotFound
  | inputFailed
  | readFailed
  | writeFailed
  | ok (name : String) (path : FPath)
deriving DecidableEq

/-- Result state of `createBackup`. -/
structure CreateResult where
  fs : FS
  outcome : CreateOutcome
deriving DecidableEq

/-- Translation of `createBackup` (main.go:222-279): check that the save file
exists, obtain a name (the prompt answer is the `input` argument), resolve
collisions, then copy the save file's bytes to the resolved backup path. -/
def createBackup (cfg : Config) (input : Option String) (nowStr : String)
    (now : Nat) (fs : FS) : CreateResult :=
  if isNotExist fs cfg.savePath then ⟨fs, .saveFileNotFound⟩
  else
    match input with
    | none => ⟨fs, .inputFailed⟩
    | some inp =>
      let name := resolveBackupName fs cfg.backupDir (requestedName inp nowStr)
      let path := backupFilePath cfg.backupDir name
      match readFile fs cfg.savePath with
      | none => ⟨fs, .readFailed⟩
      | some d =>
        match writeFile fs path d now with
        | none => ⟨fs, .writeFailed⟩
        | some fs1 => ⟨fs1, .ok name path⟩

/-- Result state of `restoreBackup`. -/
structure RestoreResult where
  fs : FS
  msgs : List Msg
deriving DecidableEq

/-- The auto-backup block of `restoreBackup` (main.go:337-349): when enabled
and the save file stat does not report not-exist, copy the current save bytes
to `AutoBackup_<timestamp>.sav`; only the fully successful copy prints
anything. -/
def autoBackupStep (cfg : Config) (nowStr : String) (now : Nat) (fs : FS) :
    FS × List Msg :=
  if cfg.autoBackup && !(isNotExist fs cfg.savePath) then
    let autoName := "AutoBackup_" ++ nowStr
    match readFile fs cfg.savePath with
    | some d =>
      match writeFile fs (backupFilePath cfg.backupDir autoName) d now with
      | some fs1 => (fs1, [.autoBackupCreated autoName])
      | none => (fs, [])
    | none => (fs, [])
  else (fs, [])

/-- The final copy of `restoreBackup` (main.go:351-361): read the selected
backup and write its bytes over the save path. -/
def copyToSave (cfg : Config) (selected : Backup) (now : Nat) (fs : FS) :
    FS × Msg :=
  match readFile fs selected.path with
  | none => (fs, .restoreReadFailed)
  | some d =>
    match writeFile fs cfg.savePath d now with
    | none => (fs, .restoreWriteFailed)
    | some fs1 => (fs1, .restoreOk)

/-- Translation of the guarded part of `restoreBackup` (main.go:324-364),
from the already-selected backup on: confirmation gate, optional auto-backup
of the current save, then the copy onto the save path. -/
def restoreBackup (cfg : Config) (selected : Backup) (confirm : Option String)
    (nowStr : String) (now : Nat) (fs : FS) : RestoreResult :=
  match confirm with
  | none => ⟨fs, [.restoreCancelled]⟩
  | some c =>
    if strToLower c ≠ "y" then ⟨fs, [.restoreCancelled]⟩
    else
      let s1 := autoBackupStep cfg nowStr now fs
      let s2 := copyToSave cfg selected now s1.1
      ⟨s2.1, s1.2 ++ [s2.2]⟩

/-- The scan loop of `listBackupsInternal` (main.go:393-409): keep
non-directory entries named `*.sav` whose creation time resolves, skipping
files whose timestamp lookup fails. -/
def scanBackups (fs : FS) (d : FPath) : List (String × Entry) → List Backup
  | [] => []
  | (n, e) :: rest =>
    if !isDirE e && strEndsWith n ".sav" then
      match getFileCreationTime fs (d ++ [n]) with
      | none => scanBackups fs d rest
      | some t => ⟨trimSuffix n ".sav", d ++ [n], t⟩ :: scanBackups fs d rest
    else scanBackups fs d rest

/-- Comparison used by the `sort.Slice` call of `listBackupsInternal`: a
backup comes first when its creation time is no older. -/
def backupGE (a b : Backup) : Bool := decide (b.createdAt ≤ a.createdAt)

/-- Translation of `listBackupsInternal` (main.go:387-416): read the backup
directory, scan it, and sort the survivors newest first. -/
def listBackupsInternal (cfg : Config) (fs : FS) : Option (List Backup) :=
  match readDir fs cfg.backupDir with
  | none => none
  | some files => some (sortBy backupGE (scanBackups fs cfg.backupDir files))

/-- Result state of `deleteBackups`. -/
structure DeleteResult where
  fs : FS
  deletedCount : Nat
  msgs : List Msg
deriving DecidableEq

/-- The removal loop of `deleteBackups` (main.go:476-485): attempt to remove
each selected backup, reporting per-item failures and counting successes. -/
def removeLoop (backups : List Backup) :
    List Nat → FS → Nat → List Msg → FS × Nat × List Msg
  | [], fs, n, ms => (fs, n, ms)
  | i :: rest, fs, n, ms =>
    match backups[i]? with
    | none => removeLoop backups rest fs n ms
    | some b =>
      match removeFile fs b.path with
      | none => removeLoop backups rest fs n (ms ++ [.deleteFailed b.name])
      | some fs1 => removeLoop backups rest fs1 (n + 1) ms

/-- Translation of `deleteBackups` (main.go:443-491) from the obtained
selection on: empty-selection early return, confirmation gate, then the
removal loop and the success count report. -/
def deleteBackups (backups : List Backup) (selected : List Nat)
    (confirm : Option String) (fs : FS) : DeleteResult :=
  if selected.isEmpty then ⟨fs, 0, [.noBackupsSelected]⟩
  else
    match confirm with
    | none => ⟨fs, 0, [.deleteCancelled]⟩
    | some c =>
      if strToLower c ≠ "y" then ⟨fs, 0, [.deleteCancelled]⟩
      else
        let r := removeLoop backups selected fs 0 []
        ⟨r.1, r.2.1, r.2.2 ++ if 0 < r.2.1 then [.deletedOk r.2.1] else []⟩

/-- The ensure-backup-directory step of `loadConfig` (main.go:152-157): only
when `os.Stat` reports not-exist is `os.MkdirAll` attempted, and its failure
is fatal. -/
def ensureBackupDir (fs : FS) (d : FPath) (now : Nat) : Option FS :=
  if isNotExist fs d then mkdirAll fs d now else some fs

/-- Translation of `loadConfig` (main.go:97-160).  JSON decoding and encoding
of the configuration record are taken as parameters, since their byte-level
behaviour belongs to the standard library; every filesystem access goes
through the modelled filesystem.  Returns the configuration, the resolved
config path, and the possibly-extended filesystem; `none` is the fatal error
return. -/
def loadConfig (decode : List Nat → Option Config) (encode : Config → List Nat)
    (defaultPath : FPath) (defaults : Config) (now : Nat) (fs : FS) :
    Option (Config × FPath × FS) :=
  match readFileE fs defaultPath with
  | .ok bs =>
    match decode bs with
    | none => none
    | some c =>
      let cp : Config × FPath :=
        if c.configFilePath ≠ [] ∧ c.configFilePath ≠ defaultPath then
          match readFileE fs c.configFilePath with
          | .ok bs2 =>
            match decode bs2 with
            | some c2 => (c2, c.configFilePath)
            | none => (c, defaultPath)
          | .error _ => (c, defaultPath)
        else (c, defaultPath)
      match ensureBackupDir fs cp.1.backupDir now with
      | none => none
      | some fs1 => some (cp.1, cp.2, fs1)
  | .error .notExist =>
    let c := { defaults with configFilePath := defaultPath }
    match writeFile fs defaultPath (encode c) now with
    | none => none
    | some fs1 =>
      match ensureBackupDir fs1 c.backupDir now with
      | none => none
      | some fs2 => some (c, defaultPath, fs2)
  | .error _ => none

/-- Outcome of the second `loadConfig` variant. -/
inductive LoadV2Result where
  | ok (c : Config) (p : FPath) (fs : FS)
  | fail
  | firstRunSetup
deriving DecidableEq

/-- Translation of the second `loadConfig` variant (main.go:734-767): on a
readable existing config file it unconditionally runs `os.MkdirAll` on the
backup directory and fails when that fails; any read error diverts to the
interactive first-run setup, which is outside the modelled core. -/
def loadConfigV2 (decode : List Nat → Option Config) (defaultPath : FPath)
    (now : Nat) (fs : FS) : LoadV2Result :=
  match readFileE fs defaultPath with
  | .ok bs =>
    match decode bs with
    | none => .fail
    | some c =>
      match mkdirAll fs c.backupDir now with
      | none => .fail
      | some fs1 => .ok c defaultPath fs1
  | .error _ => .firstRunSetup

/-- Whether a directory entry is present at a path. -/
def isDirAt (fs : FS) (p : FPath) : Bool :=
  match lookupEntry fs.entries p with
  | some (.dir _) => true
  | _ => false

/-- Whether a stat of the path succeeds. -/
def statOk (fs : FS) (p : FPath) : Bool :=
  match statPath fs p with
  | .ok _ => true
  | _ => false

/-! ### Association-list lemmas -/

theorem lookupEntry_setEntry_self (l : List (FPath × Entry)) (p : FPath) (e : Entry) :
    lookupEntry (setEntry l p e) p = some e := by
  induction l with
  | nil => simp [setEntry, lookupEntry]
  | cons kv rest ih =>
    obtain ⟨q, e0⟩ := kv
    by_cases h : q = p
    · subst h; simp [setEntry, lookupEntry]
    · simp [setEntry, lookupEntry, h, Ne.symm h, ih]

theorem lookupEntry_setEntry_ne (l : List (FPath × Entry)) (p q : FPath) (e : Entry)
    (h : q ≠ p) : lookupEntry (setEntry l p e) q = lookupEntry l q := by
  induction l with
  | nil => simp [setEntry, lookupEntry, h]
  | cons kv rest ih =>
    obtain ⟨q0, e0⟩ := kv
    by_cases h0 : q0 = p
    · subst h0; simp [setEntry, lookupEntry, h]
    · simp [setEntry, lookupEntry, h0]
      by_cases h1 : q = q0 <;> simp [h1, ih]

theorem lookupEntry_eraseEntry_self (l : List (FPath × Entry)) (p : FPath) :
    lookupEntry (eraseEntry l p) p = none := by
  induction l with
  | nil => simp [eraseEntry, lookupEntry]
  | cons kv rest ih =>
    obtain ⟨q, e⟩ := kv
    by_cases h : q = p
    · simp [eraseEntry, h, ih]
    · simp [eraseEntry, lookupEntry, h, Ne.symm h, ih]

theorem lookupEntry_eraseEntry_ne (l : List (FPath × Entry)) (p q : FPath)
    (h : q ≠ p) : lookupEntry (eraseEntry l p) q = lookupEntry l q := by
  induction l with
  | nil => simp [eraseEntry]
  | cons kv rest ih =>
    obtain ⟨q0, e0⟩ := kv
    by_cases h0 : q0 = p
    · subst h0; simp [eraseEntry, lookupEntry, h, ih]
    · simp only [eraseEntry, if_neg h0, lookupEntry]
      by_cases h1 : q = q0 <;> simp [h1, ih]

theorem lookupEntry_eq_some_imp_mem {l : List (FPath × Entry)} {p : FPath} {e : Entry}
    (h : lookupEntry l p = some e) : (p, e) ∈ l := by
  induction l with
  | nil => simp [lookupEntry] at h
  | cons kv rest ih =>
    obtain ⟨q, e0⟩ := kv
    by_cases h0 : p = q
    · subst h0; simp [lookupEntry] at h; simp [h]
    · simp [lookupEntry, h0] at h; exact List.mem_cons_of_mem _ (ih h)

theorem mem_imp_lookupEntry {l : List (FPath × Entry)} {p : FPath} {e : Entry}
    (hnd : (l.map Prod.fst).Nodup) (h : (p, e) ∈ l) : lookupEntry l p = some e := by
  induction l with
  | nil => simp at h
  | cons kv rest ih =>
    obtain ⟨q, e0⟩ := kv
    simp only [List.map_cons, List.nodup_cons] at hnd
    rcases List.mem_cons.mp h with h1 | h1
    · injection h1 with h1a h1b
      subst h1a; subst h1b
      simp [lookupEntry]
    · have hpq : p ≠ q := by
        rintro rfl
        exact hnd.1 (List.mem_map_of_mem Prod.fst h1)
      simp [lookupEntry, hpq, ih hnd.2 h1]

theorem lookupEntry_isSome_imp_mem_keys {l : List (FPath × Entry)} {p : FPath}
    (h : lookupEntry l p ≠ none) : p ∈ l.map Prod.fst := by
  induction l with
  | nil => simp [lookupEntry] at h
  | cons kv rest ih =>
    obtain ⟨q, e0⟩ := kv
    by_cases h0 : p = q
    · subst h0
      exact List.mem_cons_self _ _
    · simp only [lookupEntry, if_neg h0] at h
      exact List.mem_cons_of_mem _ (ih h)

/-! ### Filesystem-operation lemmas -/

theorem writeFile_denies {fs fs1 : FS} {p : FPath} {d : List Nat} {now : Nat}
    (h : writeFile fs p d now = some fs1) :
    fs1.statDenied = fs.statDenied ∧ fs1.readDenied = fs.readDenied ∧
      fs1.writeDenied = fs.writeDenied := by
  unfold writeFile at h
  split at h
  · exact Option.noConfusion h
  · split at h
    · exact Option.noConfusion h
    · obtain rfl := Option.some.inj h
      exact ⟨rfl, rfl, rfl⟩
    · obtain rfl := Option.some.inj h
      exact ⟨rfl, rfl, rfl⟩

theorem writeFile_lookup_self {fs fs1 : FS} {p : FPath} {d : List Nat} {now : Nat}
    (h : writeFile fs p d now = some fs1) :
    ∃ c, lookupEntry fs1.entries p = some (.file d now c) := by
  unfold writeFile at h
  split at h
  · exact Option.noConfusion h
  · split at h
    · exact Option.noConfusion h
    · obtain rfl := Option.some.inj h
      exact ⟨_, lookupEntry_setEntry_self ..⟩
    · obtain rfl := Option.some.inj h
      exact ⟨_, lookupEntry_setEntry_self ..⟩

theorem writeFile_lookup_ne {fs fs1 : FS} {p q : FPath} {d : List Nat} {now : Nat}
    (h : writeFile fs p d now = some fs1) (hne : q ≠ p) :
    lookupEntry fs1.entries q = lookupEntry fs.entries q := by
  unfold writeFile at h
  split at h
  · exact Option.noConfusion h
  · split at h
    · exact Option.noConfusion h
    · obtain rfl := Option.some.inj h
      exact lookupEntry_setEntry_ne _ _ _ _ hne
    · obtain rfl := Option.some.inj h
      exact lookupEntry_setEntry_ne _ _ _ _ hne

theorem readFile_eq_some_iff {fs : FS} {p : FPath} {d : List Nat} :
    readFile fs p = some d ↔
      (p ∉ fs.readDenied ∧ p ∉ fs.statDenied) ∧
        ∃ m c, lookupEntry fs.entries p = some (.file d m c) := by
  unfold readFile readFileE
  split
  · rename_i hd
    simp only [Except.toOption]
    constructor
    · intro h; exact absurd h (by simp)
    · rintro ⟨⟨h1, h2⟩, _⟩; exact absurd hd (by simp [h1, h2])
  · rename_i hd
    push_neg at hd
    split <;> rename_i hl
    · rename_i d0 m c
      simp only [Except.toOption]
      constructor
      · intro h; obtain rfl := Option.some.inj h; exact ⟨hd, _, _, hl⟩
      · rintro ⟨_, m', c', hl2⟩
        rw [hl] at hl2
        obtain ⟨rfl, -, -⟩ := Entry.file.inj (Option.some.inj hl2)
        rfl
    · simp only [Except.toOption]
      constructor
      · intro h; exact absurd h (by simp)
      · rintro ⟨-, m', c', hl2⟩; rw [hl] at hl2; cases hl2
    · simp only [Except.toOption]
      constructor
      · intro h; exact absurd h (by simp)
      · rintro ⟨-, m', c', hl2⟩; rw [hl] at hl2; cases hl2

/-! ### Sorting lemmas -/

theorem mem_insertBy {le : α → α → Bool} {x a : α} {l : List α} :
    a ∈ insertBy le x l ↔ a = x ∨ a ∈ l := by
  induction l with
  | nil => simp [insertBy]
  | cons b l ih =>
    unfold insertBy
    by_cases h : le x b = true
    · simp [h]
    · simp only [if_neg h, List.mem_cons, ih]
      tauto

theorem mem_sortBy {le : α → α → Bool} {a : α} {l : List α} :
    a ∈ sortBy le l ↔ a ∈ l := by
  induction l with
  | nil => simp [sortBy]
  | cons b l ih => simp [sortBy, mem_insertBy, ih]

theorem insertBy_cons {le : α → α → Bool} {x b : α} {l : List α} :
    insertBy le x (b :: l) = if le x b then x :: b :: l else b :: insertBy le x l := rfl

theorem pairwise_insertBy {le : α → α → Bool}
    (total : ∀ a b, le a b = false → le b a = true)
    (trans : ∀ a b c, le a b = true → le b c = true → le a c = true)
    (x : α) {l : List α} (h : l.Pairwise (fun a b => le a b = true)) :
    (insertBy le x l).Pairwise (fun a b => le a b = true) := by
  induction l with
  | nil => simp [insertBy]
  | cons b l ih =>
    obtain ⟨hb, hl⟩ := List.pairwise_cons.mp h
    rw [insertBy_cons]
    by_cases hxb : le x b = true
    · rw [if_pos hxb]
      refine List.pairwise_cons.mpr ⟨?_, h⟩
      intro c hc
      rcases List.mem_cons.mp hc with rfl | hc
      · exact hxb
      · exact trans x b c hxb (hb c hc)
    · rw [if_neg hxb]
      refine List.pairwise_cons.mpr ⟨?_, ih hl⟩
      intro c hc
      rcases mem_insertBy.mp hc with rfl | hc
      · exact total _ b (Bool.eq_false_iff.mpr hxb)
      · exact hb c hc

theorem pairwise_sortBy {le : α → α → Bool}
    (total : ∀ a b, le a b = false → le b a = true)
    (trans : ∀ a b c, le a b = true → le b c = true → le a c = true)
    (l : List α) : (sortBy le l).Pairwise (fun a b => le a b = true) := by
  induction l with
  | nil => simp [sortBy]
  | cons b l ih => exact pairwise_insertBy total trans b ih

/-! ### Directory-scan lemmas -/

theorem childName_concat (d l : FPath) (a : String) :
    childName d (l ++ [a]) = if l = d then some a else none := by
  simp [childName, List.dropLast_concat, List.getLast?_concat]

theorem childName_eq_some {d p : FPath} {n : String} :
    childName d p = some n ↔ p = d ++ [n] := by
  constructor
  · intro h
    rcases List.eq_nil_or_concat p with rfl | ⟨L, b, rfl⟩
    · unfold childName at h
      split at h
      · exact Option.noConfusion h
      · exact Option.noConfusion h
    · rw [List.concat_eq_append, childName_concat] at h
      split at h
      · rename_i hLd
        obtain rfl := Option.some.inj h
        rw [hLd, List.concat_eq_append]
      · exact Option.noConfusion h
  · rintro rfl
    simp [childName_concat]

theorem mem_childrenOf {l : List (FPath × Entry)} {d : FPath} {n : String} {e : Entry} :
    (n, e) ∈ childrenOf l d ↔ (d ++ [n], e) ∈ l := by
  induction l with
  | nil => simp [childrenOf]
  | cons kv rest ih =>
    obtain ⟨p, e0⟩ := kv
    unfold childrenOf
    rcases hc : childName d p with - | n0
    · have hne : (d ++ [n], e) ≠ (p, e0) := by
        rintro h
        injection h with h1 h2
        rw [← h1, childName_eq_some.mpr rfl] at hc
        exact Option.noConfusion hc
      simp only [List.mem_cons, ih]
      tauto
    · obtain rfl := childName_eq_some.mp hc
      simp only [List.mem_cons, ih]
      constructor
      · rintro (h | h)
        · injection h with h1 h2
          subst h1; subst h2
          exact Or.inl rfl
        · exact Or.inr h
      · rintro (h | h)
        · injection h with h1 h2
          obtain rfl : n = n0 := by simpa using congrArg List.getLast? h1
          subst h2
          exact Or.inl rfl
        · exact Or.inr h

theorem mem_scanBackups {fs : FS} {d : FPath} {files : List (String × Entry)} {b : Backup} :
    b ∈ scanBackups fs d files ↔ ∃ n e t, (n, e) ∈ files ∧ isDirE e = false ∧
      strEndsWith n ".sav" = true ∧ getFileCreationTime fs (d ++ [n]) = some t ∧
      b = ⟨trimSuffix n ".sav", d ++ [n], t⟩ := by
  induction files with
  | nil => simp [scanBackups]
  | cons fe rest ih =>
    obtain ⟨n0, e0⟩ := fe
    unfold scanBackups
    by_cases hkeep : (!isDirE e0 && strEndsWith n0 ".sav") = true
    · obtain ⟨hdir, hsuf⟩ := Bool.and_eq_true_iff.mp hkeep
      rw [Bool.not_eq_true'] at hdir
      rw [if_pos hkeep]
      rcases ht : getFileCreationTime fs (d ++ [n0]) with - | t0
      · rw [ih]
        constructor
        · rintro ⟨n, e, t, hmem, h1, h2, h3, rfl⟩
          exact ⟨n, e, t, List.mem_cons_of_mem _ hmem, h1, h2, h3, rfl⟩
        · rintro ⟨n, e, t, hmem, h1, h2, h3, rfl⟩
          rcases List.mem_cons.mp hmem with heq | hmem
          · injection heq with hn he
            subst hn; subst he
            rw [ht] at h3
            exact Option.noConfusion h3
          · exact ⟨n, e, t, hmem, h1, h2, h3, rfl⟩
      · simp only [List.mem_cons, ih]
        constructor
        · rintro (rfl | ⟨n, e, t, hmem, h1, h2, h3, rfl⟩)
          · exact ⟨n0, e0, t0, Or.inl rfl, hdir, hsuf, ht, rfl⟩
          · exact ⟨n, e, t, Or.inr hmem, h1, h2, h3, rfl⟩
        · rintro ⟨n, e, t, hmem, h1, h2, h3, rfl⟩
          rcases hmem with heq | hmem
          · injection heq with hn he
            subst hn; subst he
            rw [ht] at h3
            obtain rfl := Option.some.inj h3
            exact Or.inl rfl
          · exact Or.inr ⟨n, e, t, hmem, h1, h2, h3, rfl⟩
    · rw [if_neg hkeep, ih]
      constructor
      · rintro ⟨n, e, t, hmem, h1, h2, h3, rfl⟩
        exact ⟨n, e, t, List.mem_cons_of_mem _ hmem, h1, h2, h3, rfl⟩
      · rintro ⟨n, e, t, hmem, h1, h2, h3, rfl⟩
        rcases List.mem_cons.mp hmem with heq | hmem
        · injection heq with hn he
          subst hn; subst he
          rw [h1, h2] at hkeep
          simp at hkeep
        · exact ⟨n, e, t, hmem, h1, h2, h3, rfl⟩

/-! ### Decimal representation: `Nat.repr` is injective -/

/-- Numeric value of a decimal digit character. -/
def charDigitVal (c : Char) : Nat := c.toNat - 48

/-- Decoding step: extend an accumulator by one decimal digit. -/
def decStep (a : Nat) (c : Char) : Nat := a * 10 + charDigitVal c

/-- Appending the decimal digits of `n` to the decimal accumulator `a`. -/
def appDec (a n : Nat) : Nat :=
  if n < 10 then a * 10 + n else appDec a (n / 10) * 10 + n % 10
termination_by n
decreasing_by exact Nat.div_lt_self (by omega) (by omega)

theorem charDigitVal_digitChar {d : Nat} (h : d < 10) :
    charDigitVal (Nat.digitChar d) = d := by
  interval_cases d <;> decide

theorem toDigitsCore_foldl :
    ∀ (f n : Nat) (acc : List Char) (a : Nat), n < f →
      List.foldl decStep a (Nat.toDigitsCore 10 f n acc) =
        List.foldl decStep (appDec a n) acc := by
  intro f
  induction f with
  | zero => intro n acc a h; omega
  | succ f ih =>
    intro n acc a h
    by_cases h0 : n / 10 = 0
    · have hn : n < 10 := by
        rcases Nat.div_eq_zero_iff (by omega) |>.mp h0 with h1
        omega
      simp only [Nat.toDigitsCore, h0, if_pos]
      show List.foldl decStep (decStep a (Nat.digitChar (n % 10))) acc = _
      have : decStep a (Nat.digitChar (n % 10)) = appDec a n := by
        unfold decStep
        rw [charDigitVal_digitChar (Nat.mod_lt n (by omega)), appDec, if_pos hn,
          Nat.mod_eq_of_lt hn]
      rw [this]
    · have hge : 10 ≤ n := by
        by_contra hlt
        exact h0 (Nat.div_eq_of_lt (by omega))
      have hlt : n / 10 < f := by
        have := Nat.div_lt_self (show 0 < n by omega) (show 1 < 10 by omega)
        omega
      simp only [Nat.toDigitsCore, h0, if_false]
      rw [ih (n / 10) (Nat.digitChar (n % 10) :: acc) a hlt]
      show List.foldl decStep (decStep (appDec a (n / 10)) (Nat.digitChar (n % 10))) acc = _
      have : decStep (appDec a (n / 10)) (Nat.digitChar (n % 10)) = appDec a n := by
        unfold decStep
        rw [charDigitVal_digitChar (Nat.mod_lt n (by omega))]
        conv_rhs => rw [appDec]
        rw [if_neg (by omega)]
      rw [this]

theorem appDec_zero (n : Nat) : appDec 0 n = n := by
  induction n using Nat.strong_induction_on with
  | _ n ih =>
    rw [appDec]
    by_cases h : n < 10
    · simp [h]
    · rw [if_neg h, ih (n / 10) (Nat.div_lt_self (by omega) (by omega))]
      have := Nat.div_add_mod n 10
      omega

theorem foldl_decStep_repr (n : Nat) : List.foldl decStep 0 (Nat.repr n).data = n := by
  have hd : (Nat.repr n).data = Nat.toDigitsCore 10 (n + 1) n [] := rfl
  rw [hd, toDigitsCore_foldl (n + 1) n [] 0 (by omega)]
  simp [appDec_zero]

theorem natRepr_inj {m n : Nat} (h : Nat.repr m = Nat.repr n) : m = n := by
  have := congrArg (fun s => List.foldl decStep 0 s.data) h
  simpa [foldl_decStep_repr] using this

/-! ### String-append cancellation -/

theorem strAppend_cancel_left {s t u : String} (h : s ++ t = s ++ u) : t = u := by
  have h2 := congrArg String.data h
  rw [String.data_append, String.data_append] at h2
  have h3 := List.append_cancel_left h2
  cases t; cases u
  exact congrArg String.mk h3

theorem strAppend_cancel_right {s t u : String} (h : s ++ u = t ++ u) : s = t := by
  have h2 := congrArg String.data h
  rw [String.data_append, String.data_append] at h2
  have h3 := List.append_cancel_right h2
  cases s; cases t
  exact congrArg String.mk h3

/-! ### The collision probe finds the least free candidate -/

/-- The `k`-th name the collision loop tries: the base itself, then the base
with `_k` appended. -/
def probeCandidate (base : String) (k : Nat) : String :=
  if k = 0 then base else base ++ "_" ++ Nat.repr k

theorem probeCandidate_injective (base : String) :
    Function.Injective (probeCandidate base) := by
  intro i j h
  unfold probeCandidate at h
  by_cases hi : i = 0 <;> by_cases hj : j = 0
  · omega
  · rw [if_pos hi, if_neg hj] at h
    have h2 := congrArg (fun s => s.data.length) h
    simp only [String.data_append, List.length_append] at h2
    have h1 : ("_" : String).data.length = 1 := rfl
    rw [h1] at h2
    omega
  · rw [if_neg hi, if_pos hj] at h
    have h2 := congrArg (fun s => s.data.length) h
    simp only [String.data_append, List.length_append] at h2
    have h1 : ("_" : String).data.length = 1 := rfl
    rw [h1] at h2
    omega
  · rw [if_neg hi, if_neg hj] at h
    exact natRepr_inj (strAppend_cancel_left h)

theorem backupFilePath_inj {d : FPath} {n1 n2 : String}
    (h : backupFilePath d n1 = backupFilePath d n2) : n1 = n2 := by
  unfold backupFilePath at h
  have h2 := List.append_cancel_left h
  have h3 : n1 ++ ".sav" = n2 ++ ".sav" := by simpa using h2
  exact strAppend_cancel_right h3

theorem freeName_bad_mem {fs : FS} {d : FPath} {name : String}
    (h : freeName fs d name = false) :
    backupFilePath d name ∈ fs.entries.map Prod.fst ++ fs.statDenied := by
  by_cases hsd : backupFilePath d name ∈ fs.statDenied
  · exact List.mem_append_right _ hsd
  · rcases hl : lookupEntry fs.entries (backupFilePath d name) with - | e
    · exfalso
      unfold freeName isNotExist statPath at h
      rw [if_neg hsd, hl] at h
      exact Bool.noConfusion h
    · exact List.mem_append_left _ (lookupEntry_isSome_imp_mem_keys (by rw [hl]; simp))

theorem exists_free_candidate (fs : FS) (d : FPath) (base : String) :
    ∃ k, k < probeFuel fs ∧ freeName fs d (probeCandidate base k) = true := by
  by_contra hno
  push_neg at hno
  have hbad : ∀ k < probeFuel fs,
      backupFilePath d (probeCandidate base k) ∈ fs.entries.map Prod.fst ++ fs.statDenied := by
    intro k hk
    exact freeName_bad_mem (Bool.not_eq_true _ ▸ (hno k hk))
  have hinj : Function.Injective (fun k => backupFilePath d (probeCandidate base k)) := by
    intro a b hab
    exact probeCandidate_injective base (backupFilePath_inj hab)
  have hnd : ((List.range (probeFuel fs)).map
      (fun k => backupFilePath d (probeCandidate base k))).Nodup :=
    (List.nodup_range _).map hinj
  have hsub : ((List.range (probeFuel fs)).map
        (fun k => backupFilePath d (probeCandidate base k))).toFinset ⊆
      (fs.entries.map Prod.fst ++ fs.statDenied).toFinset := by
    intro x hx
    rw [List.mem_toFinset] at hx ⊢
    obtain ⟨k, hk, rfl⟩ := List.mem_map.mp hx
    exact hbad k (List.mem_range.mp hk)
  have h1 := List.toFinset_card_of_nodup hnd
  have h2 := Finset.card_le_card hsub
  have h3 := List.toFinset_card_le (fs.entries.map Prod.fst ++ fs.statDenied)
  rw [List.length_map, List.length_range] at h1
  rw [List.length_append, List.length_map] at h3
  have hfuel : probeFuel fs = fs.entries.length + fs.statDenied.length + 1 := rfl
  omega

theorem probeAux_spec (fs : FS) (d : FPath) (base : String) :
    ∀ (f i : Nat),
      (∃ k, k < f ∧ freeName fs d (probeCandidate base (i + k)) = true) →
      ∃ m, i ≤ m ∧
        probeAux fs d base f (probeCandidate base i) (i + 1) = probeCandidate base m ∧
        freeName fs d (probeCandidate base m) = true ∧
        ∀ j, i ≤ j → j < m → freeName fs d (probeCandidate base j) = false := by
  intro f
  induction f with
  | zero => rintro i ⟨k, hk, -⟩; omega
  | succ f ih =>
    rintro i ⟨k, hk, hfree⟩
    by_cases h0 : freeName fs d (probeCandidate base i) = true
    · refine ⟨i, le_refl i, ?_, h0, by omega⟩
      unfold probeAux
      rw [if_pos h0]
    · have hstep : probeAux fs d base (f + 1) (probeCandidate base i) (i + 1) =
          probeAux fs d base f (probeCandidate base (i + 1)) (i + 1 + 1) := by
        show (if freeName fs d (probeCandidate base i) = true then probeCandidate base i
          else probeAux fs d base f (base ++ "_" ++ Nat.repr (i + 1)) (i + 1 + 1)) = _
        rw [if_neg h0]
        have hc : probeCandidate base (i + 1) = base ++ "_" ++ Nat.repr (i + 1) := by
          simp [probeCandidate]
        rw [hc]
      rcases k with - | k1
      · rw [Nat.add_zero] at hfree
        exact absurd hfree h0
      · obtain ⟨m, him, heq, hfm, hmin⟩ := ih (i + 1)
          ⟨k1, by omega, by
            have : i + 1 + k1 = i + (k1 + 1) := by omega
            rw [this]
            exact hfree⟩
        refine ⟨m, by omega, by rw [hstep]; exact heq, hfm, ?_⟩
        intro j hij hjm
        rcases Nat.eq_or_lt_of_le hij with rfl | hlt
        · exact Bool.not_eq_true _ ▸ h0
        · exact hmin j hlt hjm

theorem resolveBackupName_spec (fs : FS) (d : FPath) (base : String) :
    ∃ m, resolveBackupName fs d base = probeCandidate base m ∧
      freeName fs d (probeCandidate base m) = true ∧
      ∀ j < m, freeName fs d (probeCandidate base j) = false := by
  obtain ⟨k, hk, hfree⟩ := exists_free_candidate fs d base
  obtain ⟨m, -, heq, hfm, hmin⟩ := probeAux_spec fs d base (probeFuel fs) 0
    ⟨k, hk, by simpa using hfree⟩
  exact ⟨m, heq, hfm, fun j hj => hmin j (Nat.zero_le j) hj⟩

theorem resolveBackupName_free (fs : FS) (d : FPath) (base : String) :
    freeName fs d (resolveBackupName fs d base) = true := by
  obtain ⟨m, heq, hfm, -⟩ := resolveBackupName_spec fs d base
  rw [heq]
  exact hfm

theorem freeName_lookup_none {fs : FS} {d : FPath} {name : String}
    (h : freeName fs d name = true) :
    lookupEntry fs.entries (backupFilePath d name) = none := by
  unfold freeName isNotExist statPath at h
  by_cases hsd : backupFilePath d name ∈ fs.statDenied
  · rw [if_pos hsd] at h
    exact Bool.noConfusion h
  · rw [if_neg hsd] at h
    rcases hl : lookupEntry fs.entries (backupFilePath d name) with - | e
    · rfl
    · rw [hl] at h
      exact Bool.noConfusion h

theorem createBackup_ok_elim {cfg : Config} {input : Option String} {nowStr : String}
    {now : Nat} {fs : FS} {r : CreateResult} {nm : String} {pth : FPath}
    (he : createBackup cfg input nowStr now fs = r)
    (h : r.outcome = .ok nm pth) :
    ∃ s dat, input = some s ∧
      isNotExist fs cfg.savePath = false ∧
      nm = resolveBackupName fs cfg.backupDir (requestedName s nowStr) ∧
      pth = backupFilePath cfg.backupDir nm ∧
      readFile fs cfg.savePath = some dat ∧
      writeFile fs pth dat now = some r.fs := by
  unfold createBackup at he
  split at he
  · subst he; simp at h
  · rename_i hex
    split at he
    · subst he; simp at h
    · rename_i inp
      dsimp only at he
      split at he
      · subst he; simp at h
      · rename_i dat hrf
        split at he
        · subst he; simp at h
        · rename_i fs1 hwf
          subst he
          simp only at h
          injection h with h1 h2
          subst h1; subst h2
          refine ⟨inp, dat, rfl, by simpa using hex, rfl, rfl, hrf, by simpa using hwf⟩

/-! ### Claim C2 -/

/-- C2: when the requested backup name collides with an existing file in the
backup directory, `createBackup` resolves the collision by a deterministic
linear probe appending `_1`, `_2`, … to the original base name, re-checking
existence at each step, settles on the first free candidate (whose index is
at least 1), writes to a previously-unused filename, and never overwrites an
existing entry. -/
theorem c2_collisionProbe {cfg : Config} {fs : FS} {s nowStr : String} {now : Nat}
    {nm : String} {pth : FPath}
    (hs : s ≠ "")
    (hcol : freeName fs cfg.backupDir s = false)
    (hok : (createBackup cfg (some s) nowStr now fs).outcome = .ok nm pth) :
    ∃ k, 1 ≤ k ∧ nm = probeCandidate s k ∧
      freeName fs cfg.backupDir (probeCandidate s k) = true ∧
      (∀ j < k, freeName fs cfg.backupDir (probeCandidate s j) = false) ∧
      pth = backupFilePath cfg.backupDir nm ∧
      lookupEntry fs.entries pth = none ∧
      ∀ q, q ≠ pth →
        lookupEntry (createBackup cfg (some s) nowStr now fs).fs.entries q =
          lookupEntry fs.entries q := by
  obtain ⟨s1, dat, hs1, hni, hnm, hpth, hrf, hwf⟩ := createBackup_ok_elim rfl hok
  have hss : s1 = s := (Option.some.inj hs1).symm
  subst hss
  have hreq : requestedName s1 nowStr = s1 := by unfold requestedName; rw [if_neg hs]
  rw [hreq] at hnm
  obtain ⟨m, heq, hfm, hmin⟩ := resolveBackupName_spec fs cfg.backupDir s1
  rw [heq] at hnm
  have hm1 : 1 ≤ m := by
    rcases Nat.eq_zero_or_pos m with rfl | h
    · exfalso
      have h0 : probeCandidate s1 0 = s1 := rfl
      rw [h0] at hfm
      rw [hfm] at hcol
      exact Bool.noConfusion hcol
    · exact h
  have hfree : freeName fs cfg.backupDir nm = true := by rw [hnm]; exact hfm
  refine ⟨m, hm1, hnm, by rw [← hnm]; exact hfree, fun j hj => hmin j hj, hpth, ?_, ?_⟩
  · rw [hpth]
    exact freeName_lookup_none hfree
  · intro q hq
    exact writeFile_lookup_ne hwf hq

/-- Witness for C2, realising the spec's scenario: the backup directory
contains `Backup_2024-01-01_00-00-00.sav` and the same name is requested; the
created file is `Backup_2024-01-01_00-00-00_1.sav`. -/
theorem c2_collisionProbe_witness :
    ("Backup_2024-01-01_00-00-00" : String) ≠ "" ∧
    freeName ⟨[(["s"], Entry.file [9] 0 none), (["b"], Entry.dir 0),
        (["b", "Backup_2024-01-01_00-00-00.sav"], Entry.file [1] 0 none)], [], [], []⟩
      ["b"] "Backup_2024-01-01_00-00-00" = false ∧
    (createBackup ⟨["s"], ["b"], true, []⟩ (some "Backup_2024-01-01_00-00-00") "T" 7
        ⟨[(["s"], Entry.file [9] 0 none), (["b"], Entry.dir 0),
          (["b", "Backup_2024-01-01_00-00-00.sav"], Entry.file [1] 0 none)], [], [], []⟩).outcome
      = .ok "Backup_2024-01-01_00-00-00_1" ["b", "Backup_2024-01-01_00-00-00_1.sav"] ∧
    (∃ k, 1 ≤ k ∧
      ("Backup_2024-01-01_00-00-00_1" : String) = probeCandidate "Backup_2024-01-01_00-00-00" k ∧
      freeName ⟨[(["s"], Entry.file [9] 0 none), (["b"], Entry.dir 0),
          (["b", "Backup_2024-01-01_00-00-00.sav"], Entry.file [1] 0 none)], [], [], []⟩
        ["b"] (probeCandidate "Backup_2024-01-01_00-00-00" k) = true ∧
      (∀ j < k, freeName ⟨[(["s"], Entry.file [9] 0 none), (["b"], Entry.dir 0),
          (["b", "Backup_2024-01-01_00-00-00.sav"], Entry.file [1] 0 none)], [], [], []⟩
        ["b"] (probeCandidate "Backup_2024-01-01_00-00-00" j) = false) ∧
      (["b", "Backup_2024-01-01_00-00-00_1.sav"] : FPath) =
        backupFilePath ["b"] "Backup_2024-01-01_00-00-00_1" ∧
      lookupEntry [(["s"], Entry.file [9] 0 none), (["b"], Entry.dir 0),
          (["b", "Backup_2024-01-01_00-00-00.sav"], Entry.file [1] 0 none)]
        ["b", "Backup_2024-01-01_00-00-00_1.sav"] = none ∧
      ∀ q, q ≠ ["b", "Backup_2024-01-01_00-00-00_1.sav"] →
        lookupEntry (createBackup ⟨["s"], ["b"], true, []⟩
            (some "Backup_2024-01-01_00-00-00") "T" 7
            ⟨[(["s"], Entry.file [9] 0 none), (["b"], Entry.dir 0),
              (["b", "Backup_2024-01-01_00-00-00.sav"], Entry.file [1] 0 none)],
              [], [], []⟩).fs.entries q =
          lookupEntry [(["s"], Entry.file [9] 0 none), (["b"], Entry.dir 0),
              (["b", "Backup_2024-01-01_00-00-00.sav"], Entry.file [1] 0 none)] q) :=
  ⟨by decide, by decide, by decide,
    @c2_collisionProbe ⟨["s"], ["b"], true, []⟩
      ⟨[(["s"], Entry.file [9] 0 none), (["b"], Entry.dir 0),
        (["b", "Backup_2024-01-01_00-00-00.sav"], Entry.file [1] 0 none)], [], [], []⟩
      "Backup_2024-01-01_00-00-00" "T" 7 "Backup_2024-01-01_00-00-00_1"
      ["b", "Backup_2024-01-01_00-00-00_1.sav"]
      (by decide) (by decide) (by decide)⟩

/-! ### Restore-step lemmas -/

theorem autoBackupStep_facts {cfg : Config} {nowStr2 : String} {now2 : Nat} {fs1 : FS}
    {dat : List Nat} (hs : readFile fs1 cfg.savePath = some dat) :
    ((autoBackupStep cfg nowStr2 now2 fs1).1.statDenied = fs1.statDenied ∧
      (autoBackupStep cfg nowStr2 now2 fs1).1.readDenied = fs1.readDenied ∧
      (autoBackupStep cfg nowStr2 now2 fs1).1.writeDenied = fs1.writeDenied) ∧
    readFile (autoBackupStep cfg nowStr2 now2 fs1).1 cfg.savePath = some dat ∧
    ∀ q m c, lookupEntry fs1.entries q = some (.file dat m c) →
      ∃ m2 c2, lookupEntry (autoBackupStep cfg nowStr2 now2 fs1).1.entries q =
        some (.file dat m2 c2) := by
  obtain ⟨⟨hrd, hsd⟩, m0, c0, hl0⟩ := readFile_eq_some_iff.mp hs
  by_cases hcond : (cfg.autoBackup && !isNotExist fs1 cfg.savePath) = true
  · have hred : autoBackupStep cfg nowStr2 now2 fs1 =
        (match writeFile fs1 (backupFilePath cfg.backupDir ("AutoBackup_" ++ nowStr2))
            dat now2 with
          | some fs2 => (fs2, [Msg.autoBackupCreated ("AutoBackup_" ++ nowStr2)])
          | none => (fs1, ([] : List Msg))) := by
      unfold autoBackupStep
      rw [if_pos hcond, hs]
    rcases hw : writeFile fs1 (backupFilePath cfg.backupDir ("AutoBackup_" ++ nowStr2))
        dat now2 with - | fs2
    · rw [hw] at hred
      rw [hred]
      exact ⟨⟨rfl, rfl, rfl⟩, hs, fun q m c h => ⟨m, c, h⟩⟩
    · rw [hw] at hred
      rw [hred]
      obtain ⟨hd1, hd2, hd3⟩ := writeFile_denies hw
      refine ⟨⟨hd1, hd2, hd3⟩, ?_, ?_⟩
      · rw [readFile_eq_some_iff]
        refine ⟨⟨hd2 ▸ hrd, hd1 ▸ hsd⟩, ?_⟩
        by_cases hap : cfg.savePath = backupFilePath cfg.backupDir ("AutoBackup_" ++ nowStr2)
        · obtain ⟨c2, hl2⟩ := writeFile_lookup_self hw
          exact ⟨now2, c2, by rw [hap]; exact hl2⟩
        · exact ⟨m0, c0, by rw [writeFile_lookup_ne hw hap]; exact hl0⟩
      · intro q m c hq
        by_cases hap : q = backupFilePath cfg.backupDir ("AutoBackup_" ++ nowStr2)
        · obtain ⟨c2, hl2⟩ := writeFile_lookup_self hw
          exact ⟨now2, c2, by rw [hap]; exact hl2⟩
        · exact ⟨m, c, by rw [writeFile_lookup_ne hw hap]; exact hq⟩
  · have hred : autoBackupStep cfg nowStr2 now2 fs1 = (fs1, ([] : List Msg)) := by
      unfold autoBackupStep
      rw [if_neg hcond]
    rw [hred]
    exact ⟨⟨rfl, rfl, rfl⟩, hs, fun q m c h => ⟨m, c, h⟩⟩

theorem copyToSave_roundTrip {cfg : Config} {sel : Backup} {now2 : Nat} {fs2 : FS}
    {dat : List Nat}
    (hsv : readFile fs2 cfg.savePath = some dat)
    (hsel : ∀ d1, readFile fs2 sel.path = some d1 → d1 = dat) :
    readFile (copyToSave cfg sel now2 fs2).1 cfg.savePath = some dat := by
  rcases hr : readFile fs2 sel.path with - | d1
  · have hred : copyToSave cfg sel now2 fs2 = (fs2, Msg.restoreReadFailed) := by
      unfold copyToSave
      rw [hr]
    rw [hred]
    exact hsv
  · have hd : d1 = dat := hsel d1 hr
    subst hd
    rcases hw : writeFile fs2 cfg.savePath d1 now2 with - | fs3
    · have hred : copyToSave cfg sel now2 fs2 = (fs2, Msg.restoreWriteFailed) := by
        unfold copyToSave
        rw [hr]
        dsimp only
        rw [hw]
      rw [hred]
      exact hsv
    · have hred : copyToSave cfg sel now2 fs2 = (fs3, Msg.restoreOk) := by
        unfold copyToSave
        rw [hr]
        dsimp only
        rw [hw]
      rw [hred]
      obtain ⟨hd1, hd2, hd3⟩ := writeFile_denies hw
      obtain ⟨⟨hrd, hsd⟩, m0, c0, hl0⟩ := readFile_eq_some_iff.mp hsv
      rw [readFile_eq_some_iff]
      obtain ⟨c3, hl3⟩ := writeFile_lookup_self hw
      exact ⟨⟨hd2 ▸ hrd, hd1 ▸ hsd⟩, now2, c3, hl3⟩

/-! ### Claim C1 -/

/-- C1: creating a backup of a readable save file and then restoring that
same backup (confirmed, with no intervening modification) leaves the save
path byte-identical to the content the save file had when the backup was
created, whatever the auto-backup setting and whatever further environmental
failures occur during the restore. -/
theorem c1_createRestore_roundTrip {cfg : Config} {fs : FS} {input : Option String}
    {nowStr nowStr2 : String} {now now2 t : Nat} {nm : String} {pth : FPath}
    {dat : List Nat}
    (hok : (createBackup cfg input nowStr now fs).outcome = .ok nm pth)
    (hdata : readFile fs cfg.savePath = some dat) :
    readFile (restoreBackup cfg ⟨nm, pth, t⟩ (some "y") nowStr2 now2
        (createBackup cfg input nowStr now fs).fs).fs cfg.savePath = some dat := by
  obtain ⟨s, d0, hin, hni, hnm, hpth, hrf, hwf⟩ := createBackup_ok_elim rfl hok
  obtain rfl : d0 = dat := by
    rw [hrf] at hdata
    exact Option.some.inj hdata
  obtain ⟨⟨hrd, hsd⟩, m0, c0, hl0⟩ := readFile_eq_some_iff.mp hdata
  have hfree : freeName fs cfg.backupDir nm = true := by
    rw [hnm]
    exact resolveBackupName_free fs cfg.backupDir (requestedName s nowStr)
  have hlpth : lookupEntry fs.entries pth = none := by
    rw [hpth]
    exact freeName_lookup_none hfree
  have hne : cfg.savePath ≠ pth := by
    intro h
    rw [← h, hl0] at hlpth
    exact Option.noConfusion hlpth
  obtain ⟨hfd1, hfd2, hfd3⟩ := writeFile_denies hwf
  obtain ⟨c1, hlp1⟩ := writeFile_lookup_self hwf
  have hl1 : lookupEntry (createBackup cfg input nowStr now fs).fs.entries cfg.savePath =
      some (.file d0 m0 c0) := by
    rw [writeFile_lookup_ne hwf hne]
    exact hl0
  have hs1 : readFile (createBackup cfg input nowStr now fs).fs cfg.savePath = some d0 := by
    rw [readFile_eq_some_iff]
    exact ⟨⟨hfd2 ▸ hrd, hfd1 ▸ hsd⟩, m0, c0, hl1⟩
  unfold restoreBackup
  dsimp only
  rw [if_neg (by decide : ¬(strToLower "y" ≠ "y"))]
  dsimp only
  obtain ⟨⟨had1, had2, had3⟩, hsv2, hkeep⟩ := @autoBackupStep_facts cfg nowStr2 now2 _ _ hs1
  refine copyToSave_roundTrip hsv2 ?_
  intro d1 hr1
  obtain ⟨-, m2, c2, hl2⟩ := readFile_eq_some_iff.mp hr1
  obtain ⟨m3, c3, hl3⟩ := hkeep pth now c1 hlp1
  have heq := hl2.symm.trans hl3
  exact (Entry.file.inj (Option.some.inj heq)).1

/-- Witness for C1: a concrete save file is backed up and the backup is
restored; the save path again holds the original bytes. -/
theorem c1_createRestore_roundTrip_witness :
    (createBackup ⟨["s"], ["b"], true, []⟩ (some "n") "T" 7
        ⟨[(["s"], Entry.file [1, 2] 0 none), (["b"], Entry.dir 0)], [], [], []⟩).outcome
      = .ok "n" ["b", "n.sav"] ∧
    readFile ⟨[(["s"], Entry.file [1, 2] 0 none), (["b"], Entry.dir 0)], [], [], []⟩ ["s"]
      = some [1, 2] ∧
    readFile (restoreBackup ⟨["s"], ["b"], true, []⟩ ⟨"n", ["b", "n.sav"], 0⟩ (some "y") "T2" 11
        (createBackup ⟨["s"], ["b"], true, []⟩ (some "n") "T" 7
          ⟨[(["s"], Entry.file [1, 2] 0 none), (["b"], Entry.dir 0)], [], [], []⟩).fs).fs ["s"]
      = some [1, 2] :=
  ⟨by decide, by decide,
    @c1_createRestore_roundTrip ⟨["s"], ["b"], true, []⟩
      ⟨[(["s"], Entry.file [1, 2] 0 none), (["b"], Entry.dir 0)], [], [], []⟩
      (some "n") "T" "T2" 7 11 0 "n" ["b", "n.sav"] [1, 2] (by decide) (by decide)⟩

/-! ### Claim C4 -/

/-- C4 (amended): `restoreBackup` leaves the filesystem untouched — in
particular it never writes to the save path — whenever the confirmation
prompt fails or the confirmation answer, lowercased, differs from `y`. -/
theorem c4_confirmGate {cfg : Config} {sel : Backup} {confirm : Option String}
    {nowStr : String} {now : Nat} {fs : FS}
    (h : ∀ c, confirm = some c → strToLower c ≠ "y") :
    restoreBackup cfg sel confirm nowStr now fs = ⟨fs, [.restoreCancelled]⟩ := by
  unfold restoreBackup
  rcases confirm with - | c
  · rfl
  · dsimp only
    rw [if_pos (h c rfl)]

/-- Witness for C4: answering `n` cancels the restore and changes nothing. -/
theorem c4_confirmGate_witness :
    strToLower "n" ≠ "y" ∧
    restoreBackup ⟨["s"], ["b"], true, []⟩ ⟨"x", ["b", "x.sav"], 0⟩ (some "n") "T" 5
        ⟨[(["s"], Entry.file [1] 0 none), (["b"], Entry.dir 0),
          (["b", "x.sav"], Entry.file [2] 0 none)], [], [], []⟩
      = ⟨⟨[(["s"], Entry.file [1] 0 none), (["b"], Entry.dir 0),
          (["b", "x.sav"], Entry.file [2] 0 none)], [], [], []⟩, [.restoreCancelled]⟩ :=
  ⟨by decide,
    c4_confirmGate (fun c hc => by
      obtain rfl := Option.some.inj hc
      decide)⟩

/-- Counterexample to C4 as stated: the confirmation answer `Y` is not the
string `y`, yet the restore proceeds and overwrites the save path, because
the code compares the lowercased answer.  Here the save file holds `[1]`, the
selected backup holds `[2]`, and after answering `Y` the save path holds
`[2]`. -/
theorem c4_claim_counterexample :
    ("Y" : String) ≠ "y" ∧
    readFile ⟨[(["s"], Entry.file [1] 0 none), (["b"], Entry.dir 0),
        (["b", "x.sav"], Entry.file [2] 0 none)], [], [], []⟩ ["s"] = some [1] ∧
    readFile (restoreBackup ⟨["s"], ["b"], false, []⟩ ⟨"x", ["b", "x.sav"], 0⟩ (some "Y") "T" 5
        ⟨[(["s"], Entry.file [1] 0 none), (["b"], Entry.dir 0),
          (["b", "x.sav"], Entry.file [2] 0 none)], [], [], []⟩).fs ["s"] = some [2] := by
  refine ⟨by decide, by decide, by decide⟩

/-! ### Claim C10 -/

/-- C10: `deleteBackups` removes nothing — the filesystem is unchanged and
the reported count is zero — unless the confirmation prompt succeeds and its
answer, lowercased, is exactly `y`; in particular `yes`, the empty answer,
and a failed prompt all cancel the deletion. -/
theorem c10_deleteConfirmGate {backups : List Backup} {selected : List Nat}
    {confirm : Option String} {fs : FS}
    (h : ∀ c, confirm = some c → strToLower c ≠ "y") :
    (deleteBackups backups selected confirm fs).fs = fs ∧
    (deleteBackups backups selected confirm fs).deletedCount = 0 := by
  unfold deleteBackups
  by_cases hemp : selected.isEmpty = true
  · rw [if_pos hemp]
    exact ⟨rfl, rfl⟩
  · rw [if_neg hemp]
    rcases confirm with - | c
    · exact ⟨rfl, rfl⟩
    · dsimp only
      rw [if_pos (h c rfl)]
      exact ⟨rfl, rfl⟩

/-- Witness for C10: answering `yes` to the deletion prompt deletes nothing. -/
theorem c10_deleteConfirmGate_witness :
    strToLower "yes" ≠ "y" ∧
    (deleteBackups [⟨"a", ["b", "a.sav"], 3⟩] [0] (some "yes")
        ⟨[(["b"], Entry.dir 0), (["b", "a.sav"], Entry.file [9] 3 none)], [], [], []⟩).fs
      = ⟨[(["b"], Entry.dir 0), (["b", "a.sav"], Entry.file [9] 3 none)], [], [], []⟩ ∧
    (deleteBackups [⟨"a", ["b", "a.sav"], 3⟩] [0] (some "yes")
        ⟨[(["b"], Entry.dir 0), (["b", "a.sav"], Entry.file [9] 3 none)], [], [], []⟩).deletedCount
      = 0 :=
  ⟨by decide,
    (c10_deleteConfirmGate (fun c hc => by
      obtain rfl := Option.some.inj hc
      decide)).1,
    (c10_deleteConfirmGate (fun c hc => by
      obtain rfl := Option.some.inj hc
      decide)).2⟩

theorem copyToSave_lookup_ne {cfg : Config} {sel : Backup} {now : Nat} {fs : FS}
    {q : FPath} (h : q ≠ cfg.savePath) :
    lookupEntry (copyToSave cfg sel now fs).1.entries q = lookupEntry fs.entries q := by
  rcases hr : readFile fs sel.path with - | d1
  · have hred : copyToSave cfg sel now fs = (fs, Msg.restoreReadFailed) := by
      unfold copyToSave
      rw [hr]
    rw [hred]
  · rcases hw : writeFile fs cfg.savePath d1 now with - | fs3
    · have hred : copyToSave cfg sel now fs = (fs, Msg.restoreWriteFailed) := by
        unfold copyToSave
        rw [hr]
        dsimp only
        rw [hw]
      rw [hred]
    · have hred : copyToSave cfg sel now fs = (fs3, Msg.restoreOk) := by
        unfold copyToSave
        rw [hr]
        dsimp only
        rw [hw]
      rw [hred]
      exact writeFile_lookup_ne hw h

/-! ### Claim C3 -/

/-- C3 (amended): with auto-backup enabled and an existing, readable save
file, a confirmed restore first copies the current save bytes to
`AutoBackup_<timestamp>.sav` in the backup directory — on success that entry
holds the pre-restore save content afterwards and its creation is announced —
while if the auto-backup write fails, the failure is silent (no message about
it is emitted) and the restore of the selected backup still proceeds exactly
as if the auto-backup step had been skipped. -/
theorem c3_autoBackupOnRestore {cfg : Config} {sel : Backup} {nowStr : String}
    {now : Nat} {fs : FS} {dat : List Nat}
    (hab : cfg.autoBackup = true)
    (hex : isNotExist fs cfg.savePath = false)
    (hrd : readFile fs cfg.savePath = some dat) :
    (∀ fs1, writeFile fs (backupFilePath cfg.backupDir ("AutoBackup_" ++ nowStr)) dat now
        = some fs1 →
      cfg.savePath ≠ backupFilePath cfg.backupDir ("AutoBackup_" ++ nowStr) →
      (∃ c, lookupEntry (restoreBackup cfg sel (some "y") nowStr now fs).fs.entries
          (backupFilePath cfg.backupDir ("AutoBackup_" ++ nowStr)) = some (.file dat now c)) ∧
      Msg.autoBackupCreated ("AutoBackup_" ++ nowStr)
        ∈ (restoreBackup cfg sel (some "y") nowStr now fs).msgs) ∧
    (writeFile fs (backupFilePath cfg.backupDir ("AutoBackup_" ++ nowStr)) dat now = none →
      restoreBackup cfg sel (some "y") nowStr now fs =
        ⟨(copyToSave cfg sel now fs).1, [(copyToSave cfg sel now fs).2]⟩) := by
  have hcond : (cfg.autoBackup && !isNotExist fs cfg.savePath) = true := by
    rw [hab, hex]
    rfl
  have hmain : restoreBackup cfg sel (some "y") nowStr now fs =
      ⟨(copyToSave cfg sel now (autoBackupStep cfg nowStr now fs).1).1,
        (autoBackupStep cfg nowStr now fs).2 ++
          [(copyToSave cfg sel now (autoBackupStep cfg nowStr now fs).1).2]⟩ := by
    unfold restoreBackup
    dsimp only
    rw [if_neg (by decide : ¬(strToLower "y" ≠ "y"))]
  constructor
  · intro fs1 hw hne
    have hstep : autoBackupStep cfg nowStr now fs =
        (fs1, [Msg.autoBackupCreated ("AutoBackup_" ++ nowStr)]) := by
      unfold autoBackupStep
      rw [if_pos hcond, hrd]
      dsimp only
      rw [hw]
    rw [hmain, hstep]
    constructor
    · obtain ⟨c, hc⟩ := writeFile_lookup_self hw
      refine ⟨c, ?_⟩
      rw [copyToSave_lookup_ne (fun hq => hne hq.symm)]
      exact hc
    · exact List.mem_append_left _ (List.mem_singleton.mpr rfl)
  · intro hw
    have hstep : autoBackupStep cfg nowStr now fs = (fs, ([] : List Msg)) := by
      unfold autoBackupStep
      rw [if_pos hcond, hrd]
      dsimp only
      rw [hw]
    rw [hmain, hstep]
    rfl

/-- Witness for C3: one run where the auto-backup write succeeds (the
`AutoBackup_T.sav` entry holds the pre-restore bytes `[1]` and its creation
is announced), and one run where that write is denied (the restore still
overwrites the save path with the backup's bytes `[2]`, with no message
besides the restore success). -/
theorem c3_autoBackupOnRestore_witness :
    ((∃ c, lookupEntry (restoreBackup ⟨["s"], ["b"], true, []⟩ ⟨"x", ["b", "x.sav"], 0⟩
          (some "y") "T" 9
          ⟨[(["s"], Entry.file [1] 0 none), (["b"], Entry.dir 0),
            (["b", "x.sav"], Entry.file [2] 0 none)], [], [], []⟩).fs.entries
        ["b", "AutoBackup_T.sav"] = some (.file [1] 9 c)) ∧
      Msg.autoBackupCreated "AutoBackup_T"
        ∈ (restoreBackup ⟨["s"], ["b"], true, []⟩ ⟨"x", ["b", "x.sav"], 0⟩ (some "y") "T" 9
            ⟨[(["s"], Entry.file [1] 0 none), (["b"], Entry.dir 0),
              (["b", "x.sav"], Entry.file [2] 0 none)], [], [], []⟩).msgs) ∧
    restoreBackup ⟨["s"], ["b"], true, []⟩ ⟨"x", ["b", "x.sav"], 0⟩ (some "y") "T" 9
        ⟨[(["s"], Entry.file [1] 0 none), (["b"], Entry.dir 0),
          (["b", "x.sav"], Entry.file [2] 0 none)], [], [], [["b", "AutoBackup_T.sav"]]⟩ =
      ⟨(copyToSave ⟨["s"], ["b"], true, []⟩ ⟨"x", ["b", "x.sav"], 0⟩ 9
          ⟨[(["s"], Entry.file [1] 0 none), (["b"], Entry.dir 0),
            (["b", "x.sav"], Entry.file [2] 0 none)], [], [], [["b", "AutoBackup_T.sav"]]⟩).1,
        [(copyToSave ⟨["s"], ["b"], true, []⟩ ⟨"x", ["b", "x.sav"], 0⟩ 9
          ⟨[(["s"], Entry.file [1] 0 none), (["b"], Entry.dir 0),
            (["b", "x.sav"], Entry.file [2] 0 none)], [], [], [["b", "AutoBackup_T.sav"]]⟩).2]⟩ := by
  constructor
  · obtain ⟨fs1, hw⟩ : ∃ fs1, writeFile
        ⟨[(["s"], Entry.file [1] 0 none), (["b"], Entry.dir 0),
          (["b", "x.sav"], Entry.file [2] 0 none)], [], [], []⟩
        (backupFilePath ["b"] ("AutoBackup_" ++ "T")) [1] 9 = some fs1 := ⟨_, rfl⟩
    exact (@c3_autoBackupOnRestore ⟨["s"], ["b"], true, []⟩ ⟨"x", ["b", "x.sav"], 0⟩ "T" 9
      ⟨[(["s"], Entry.file [1] 0 none), (["b"], Entry.dir 0),
        (["b", "x.sav"], Entry.file [2] 0 none)], [], [], []⟩ [1]
      (by decide) (by decide) (by decide)).1 fs1 hw (by decide)
  · exact (@c3_autoBackupOnRestore ⟨["s"], ["b"], true, []⟩ ⟨"x", ["b", "x.sav"], 0⟩ "T" 9
      ⟨[(["s"], Entry.file [1] 0 none), (["b"], Entry.dir 0),
        (["b", "x.sav"], Entry.file [2] 0 none)], [], [], [["b", "AutoBackup_T.sav"]]⟩ [1]
      (by decide) (by decide) (by decide)).2 (by decide)

/-- Counterexample to C3 as stated: when the auto-backup step fails (here the
write of `AutoBackup_T.sav` is denied), nothing reports the failure — the
only message of the whole restore is the restore-success message, identical
to a run without any auto-backup problem — although the restore itself
proceeds and the save path receives the backup's bytes. -/
theorem c3_claim_counterexample :
    (restoreBackup ⟨["s"], ["b"], true, []⟩ ⟨"x", ["b", "x.sav"], 0⟩ (some "y") "T" 5
        ⟨[(["s"], Entry.file [1] 0 none), (["b"], Entry.dir 0),
          (["b", "x.sav"], Entry.file [2] 0 none)], [], [],
          [["b", "AutoBackup_T.sav"]]⟩).msgs = [.restoreOk] ∧
    readFile (restoreBackup ⟨["s"], ["b"], true, []⟩ ⟨"x", ["b", "x.sav"], 0⟩ (some "y") "T" 5
        ⟨[(["s"], Entry.file [1] 0 none), (["b"], Entry.dir 0),
          (["b", "x.sav"], Entry.file [2] 0 none)], [], [],
          [["b", "AutoBackup_T.sav"]]⟩).fs ["s"] = some [2] ∧
    lookupEntry (restoreBackup ⟨["s"], ["b"], true, []⟩ ⟨"x", ["b", "x.sav"], 0⟩ (some "y") "T" 5
        ⟨[(["s"], Entry.file [1] 0 none), (["b"], Entry.dir 0),
          (["b", "x.sav"], Entry.file [2] 0 none)], [], [],
          [["b", "AutoBackup_T.sav"]]⟩).fs.entries ["b", "AutoBackup_T.sav"] = none :=
  ⟨by decide, by decide, by decide⟩

/-! ### Claim C5 -/

/-- C5 (amended): when `os.Stat` reports the save path missing,
`createBackup` fails with the save-file-not-found error and leaves the
filesystem unchanged; when the save path exists but its content cannot be
read as a regular file (for example a directory sits there), `createBackup`
fails with a read error instead — and in that case too it creates no file in
the backup directory. -/
theorem c5_saveMissing {cfg : Config} {input : Option String} {nowStr : String}
    {now : Nat} {fs : FS} :
    (isNotExist fs cfg.savePath = true →
      createBackup cfg input nowStr now fs = ⟨fs, .saveFileNotFound⟩) ∧
    (∀ s, isNotExist fs cfg.savePath = false → input = some s →
      readFile fs cfg.savePath = none →
      createBackup cfg input nowStr now fs = ⟨fs, .readFailed⟩) := by
  constructor
  · intro h
    unfold createBackup
    rw [if_pos h]
  · intro s hex hin hrf
    subst hin
    unfold createBackup
    rw [if_neg (by rw [hex]; exact Bool.noConfusion)]
    dsimp only
    rw [hrf]

/-- Witness for C5: a missing save path yields the not-found error, and a
directory at the save path yields the read error; neither changes the
filesystem. -/
theorem c5_saveMissing_witness :
    isNotExist ⟨[(["b"], Entry.dir 0)], [], [], []⟩ ["s"] = true ∧
    createBackup ⟨["s"], ["b"], true, []⟩ (some "n") "T" 7 ⟨[(["b"], Entry.dir 0)], [], [], []⟩
      = ⟨⟨[(["b"], Entry.dir 0)], [], [], []⟩, .saveFileNotFound⟩ ∧
    isNotExist ⟨[(["s"], Entry.dir 0), (["b"], Entry.dir 0)], [], [], []⟩ ["s"] = false ∧
    readFile ⟨[(["s"], Entry.dir 0), (["b"], Entry.dir 0)], [], [], []⟩ ["s"] = none ∧
    createBackup ⟨["s"], ["b"], true, []⟩ (some "n") "T" 7
        ⟨[(["s"], Entry.dir 0), (["b"], Entry.dir 0)], [], [], []⟩
      = ⟨⟨[(["s"], Entry.dir 0), (["b"], Entry.dir 0)], [], [], []⟩, .readFailed⟩ :=
  ⟨by decide,
    (@c5_saveMissing ⟨["s"], ["b"], true, []⟩ (some "n") "T" 7
      ⟨[(["b"], Entry.dir 0)], [], [], []⟩).1 (by decide),
    by decide, by decide,
    (@c5_saveMissing ⟨["s"], ["b"], true, []⟩ (some "n") "T" 7
      ⟨[(["s"], Entry.dir 0), (["b"], Entry.dir 0)], [], [], []⟩).2 "n"
      (by decide) (by decide) (by decide)⟩

/-- Counterexample to C5 as stated: a directory at `save_path` is not an
existing regular file, yet `createBackup` does not fail with the
save-file-not-found error — it passes the stat check and fails reading the
content instead (still creating nothing). -/
theorem c5_claim_counterexample :
    isNotExist ⟨[(["s"], Entry.dir 0), (["b"], Entry.dir 0)], [], [], []⟩ ["s"] = false ∧
    (createBackup ⟨["s"], ["b"], true, []⟩ (some "n") "T" 7
        ⟨[(["s"], Entry.dir 0), (["b"], Entry.dir 0)], [], [], []⟩).outcome = .readFailed ∧
    CreateOutcome.readFailed ≠ CreateOutcome.saveFileNotFound :=
  ⟨by decide, by decide, by decide⟩

/-! ### Claim C6 -/

theorem readDir_some_elim {fs : FS} {d : FPath} {files : List (String × Entry)}
    (h : readDir fs d = some files) :
    files = sortBy (fun a b => strLe a.1 b.1) (childrenOf fs.entries d) := by
  unfold readDir at h
  split at h
  · exact Option.noConfusion h
  · split at h
    · exact (Option.some.inj h).symm
    · exact Option.noConfusion h

/-- C6: on a readable backup directory, `listBackupsInternal` succeeds and
returns exactly the non-directory children whose names end in `.sav` and
whose creation-time lookup succeeds — a failing per-file timestamp lookup
silently drops just that file — sorted by creation time descending. -/
theorem c6_listBackups {cfg : Config} {fs : FS} {files : List (String × Entry)}
    (hwf : FS.wf fs)
    (hrd : readDir fs cfg.backupDir = some files) :
    ∃ l, listBackupsInternal cfg fs = some l ∧
      (∀ b : Backup, b ∈ l ↔ ∃ n e t,
        lookupEntry fs.entries (cfg.backupDir ++ [n]) = some e ∧
        isDirE e = false ∧ strEndsWith n ".sav" = true ∧
        getFileCreationTime fs (cfg.backupDir ++ [n]) = some t ∧
        b = ⟨trimSuffix n ".sav", cfg.backupDir ++ [n], t⟩) ∧
      List.Pairwise (fun a b => b.createdAt ≤ a.createdAt) l := by
  refine ⟨sortBy backupGE (scanBackups fs cfg.backupDir files), ?_, ?_, ?_⟩
  · unfold listBackupsInternal
    rw [hrd]
  · intro b
    rw [mem_sortBy, mem_scanBackups]
    obtain hfiles := readDir_some_elim hrd
    constructor
    · rintro ⟨n, e, t, hmem, h1, h2, h3, rfl⟩
      rw [hfiles, mem_sortBy] at hmem
      exact ⟨n, e, t, mem_imp_lookupEntry hwf (mem_childrenOf.mp hmem), h1, h2, h3, rfl⟩
    · rintro ⟨n, e, t, hl, h1, h2, h3, rfl⟩
      refine ⟨n, e, t, ?_, h1, h2, h3, rfl⟩
      rw [hfiles, mem_sortBy]
      exact mem_childrenOf.mpr (lookupEntry_eq_some_imp_mem hl)
  · refine (pairwise_sortBy ?_ ?_ (scanBackups fs cfg.backupDir files)).imp
      (fun {a b} hab => by simpa [backupGE] using hab)
    · intro a b hab
      unfold backupGE at hab ⊢
      simp only [decide_eq_false_iff_not, not_le] at hab
      simp only [decide_eq_true_eq]
      omega
    · intro a b c h1 h2
      unfold backupGE at h1 h2 ⊢
      simp only [decide_eq_true_eq] at h1 h2 ⊢
      omega

/-- Witness for C6: a backup directory containing two good `.sav` files, a
`.sav` file whose stat is denied (dropped silently), a subdirectory, and a
`.txt` file; listing succeeds and returns the two good backups newest
first. -/
theorem c6_listBackups_witness :
    FS.wf ⟨[(["s"], Entry.file [1, 2] 0 none), (["b"], Entry.dir 0),
        (["b", "a.sav"], Entry.file [9] 3 none), (["b", "z.sav"], Entry.file [8] 9 none),
        (["b", "sub"], Entry.dir 2), (["b", "n.txt"], Entry.file [] 5 none),
        (["b", "bad.sav"], Entry.file [] 7 none)], [["b", "bad.sav"]], [], []⟩ ∧
    listBackupsInternal ⟨["s"], ["b"], true, []⟩
        ⟨[(["s"], Entry.file [1, 2] 0 none), (["b"], Entry.dir 0),
          (["b", "a.sav"], Entry.file [9] 3 none), (["b", "z.sav"], Entry.file [8] 9 none),
          (["b", "sub"], Entry.dir 2), (["b", "n.txt"], Entry.file [] 5 none),
          (["b", "bad.sav"], Entry.file [] 7 none)], [["b", "bad.sav"]], [], []⟩
      = some [⟨"z", ["b", "z.sav"], 9⟩, ⟨"a", ["b", "a.sav"], 3⟩] ∧
    (∃ l, listBackupsInternal ⟨["s"], ["b"], true, []⟩
        ⟨[(["s"], Entry.file [1, 2] 0 none), (["b"], Entry.dir 0),
          (["b", "a.sav"], Entry.file [9] 3 none), (["b", "z.sav"], Entry.file [8] 9 none),
          (["b", "sub"], Entry.dir 2), (["b", "n.txt"], Entry.file [] 5 none),
          (["b", "bad.sav"], Entry.file [] 7 none)], [["b", "bad.sav"]], [], []⟩ = some l ∧
      (∀ b : Backup, b ∈ l ↔ ∃ n e t,
        lookupEntry [(["s"], Entry.file [1, 2] 0 none), (["b"], Entry.dir 0),
          (["b", "a.sav"], Entry.file [9] 3 none), (["b", "z.sav"], Entry.file [8] 9 none),
          (["b", "sub"], Entry.dir 2), (["b", "n.txt"], Entry.file [] 5 none),
          (["b", "bad.sav"], Entry.file [] 7 none)] (["b"] ++ [n]) = some e ∧
        isDirE e = false ∧ strEndsWith n ".sav" = true ∧
        getFileCreationTime ⟨[(["s"], Entry.file [1, 2] 0 none), (["b"], Entry.dir 0),
          (["b", "a.sav"], Entry.file [9] 3 none), (["b", "z.sav"], Entry.file [8] 9 none),
          (["b", "sub"], Entry.dir 2), (["b", "n.txt"], Entry.file [] 5 none),
          (["b", "bad.sav"], Entry.file [] 7 none)], [["b", "bad.sav"]], [], []⟩
          (["b"] ++ [n]) = some t ∧
        b = ⟨trimSuffix n ".sav", ["b"] ++ [n], t⟩) ∧
      List.Pairwise (fun a b => b.createdAt ≤ a.createdAt) l) := by
  refine ⟨by unfold FS.wf; decide, by decide, ?_⟩
  obtain ⟨files, hrd⟩ : ∃ f, readDir
      ⟨[(["s"], Entry.file [1, 2] 0 none), (["b"], Entry.dir 0),
        (["b", "a.sav"], Entry.file [9] 3 none), (["b", "z.sav"], Entry.file [8] 9 none),
        (["b", "sub"], Entry.dir 2), (["b", "n.txt"], Entry.file [] 5 none),
        (["b", "bad.sav"], Entry.file [] 7 none)], [["b", "bad.sav"]], [], []⟩ ["b"]
      = some f := ⟨_, rfl⟩
  exact @c6_listBackups ⟨["s"], ["b"], true, []⟩ _ files (by unfold FS.wf; decide) hrd

/-! ### Claim C7 -/

/-- Whether `os.Remove` would succeed on the path in the given filesystem. -/
def removable (fs : FS) (p : FPath) : Bool :=
  !(decide (p ∈ fs.writeDenied)) && (lookupEntry fs.entries p).isSome

theorem removable_congr {fs fs1 : FS} {q : FPath}
    (hl : lookupEntry fs1.entries q = lookupEntry fs.entries q)
    (hw : fs1.writeDenied = fs.writeDenied) : removable fs1 q = removable fs q := by
  unfold removable
  rw [hl, hw]

theorem removeFile_none_of_not_removable {fs : FS} {p : FPath}
    (h : removable fs p = false) : removeFile fs p = none := by
  unfold removable at h
  unfold removeFile
  by_cases hw : p ∈ fs.writeDenied
  · rw [if_pos hw]
  · rw [if_neg hw]
    rcases hl : lookupEntry fs.entries p with - | e
    · rfl
    · rw [hl] at h
      simp [hw] at h

theorem removeFile_some_of_removable {fs : FS} {p : FPath}
    (h : removable fs p = true) :
    removeFile fs p = some { fs with entries := eraseEntry fs.entries p } := by
  unfold removable at h
  obtain ⟨hw, hl⟩ := Bool.and_eq_true_iff.mp h
  rw [Bool.not_eq_true', decide_eq_false_iff_not] at hw
  unfold removeFile
  rw [if_neg hw]
  rcases hle : lookupEntry fs.entries p with - | e
  · rw [hle] at hl
    exact Bool.noConfusion hl
  · rfl

theorem removeLoop_spec (backups : List Backup) :
    ∀ (selected : List Nat) (fs : FS) (n : Nat) (ms : List Msg),
      (∀ i ∈ selected, i < backups.length) →
      ((selected.filterMap (fun i => backups[i]?)).map Backup.path).Nodup →
      (removeLoop backups selected fs n ms).2.1 =
        n + ((selected.filterMap (fun i => backups[i]?)).filter
          (fun b => removable fs b.path)).length ∧
      (∀ p, lookupEntry (removeLoop backups selected fs n ms).1.entries p =
        if p ∈ ((selected.filterMap (fun i => backups[i]?)).filter
            (fun b => removable fs b.path)).map Backup.path then none
        else lookupEntry fs.entries p) ∧
      (removeLoop backups selected fs n ms).1.writeDenied = fs.writeDenied := by
  intro selected
  induction selected with
  | nil =>
    intro fs n ms hvalid hnd
    refine ⟨by simp [removeLoop], fun p => by simp [removeLoop], rfl⟩
  | cons i rest ih =>
    intro fs n ms hvalid hnd
    obtain ⟨b, hb⟩ : ∃ b, backups[i]? = some b :=
      ⟨_, List.getElem?_eq_getElem (hvalid i (List.mem_cons_self i rest))⟩
    have hfm : (i :: rest).filterMap (fun j => backups[j]?) =
        b :: rest.filterMap (fun j => backups[j]?) := by
      rw [List.filterMap_cons, hb]
    rw [hfm] at hnd
    rw [List.map_cons, List.nodup_cons] at hnd
    obtain ⟨hbp, hndr⟩ := hnd
    have hvr : ∀ j ∈ rest, j < backups.length :=
      fun j hj => hvalid j (List.mem_cons_of_mem i hj)
    by_cases hrem : removable fs b.path = true
    · have hrf := removeFile_some_of_removable hrem
      have hloop : removeLoop backups (i :: rest) fs n ms =
          removeLoop backups rest { fs with entries := eraseEntry fs.entries b.path }
            (n + 1) ms := by
        conv_lhs => unfold removeLoop
        rw [hb]
        dsimp only
        rw [hrf]
      have hcongr : ∀ x ∈ rest.filterMap (fun j => backups[j]?),
          removable { fs with entries := eraseEntry fs.entries b.path } x.path =
            removable fs x.path := by
        intro x hx
        refine removable_congr ?_ rfl
        refine lookupEntry_eraseEntry_ne _ _ _ (fun hxp => hbp ?_)
        rw [← hxp]
        exact List.mem_map_of_mem Backup.path hx
      obtain ⟨ihc, ihl, ihw⟩ := ih { fs with entries := eraseEntry fs.entries b.path }
        (n + 1) ms hvr hndr
      have hfilter : (rest.filterMap (fun j => backups[j]?)).filter
          (fun x => removable { fs with entries := eraseEntry fs.entries b.path } x.path) =
          (rest.filterMap (fun j => backups[j]?)).filter (fun x => removable fs x.path) :=
        List.filter_congr hcongr
      refine ⟨?_, ?_, ?_⟩
      · rw [hloop, ihc, hfilter, hfm, List.filter_cons_of_pos (by exact hrem)]
        simp [Nat.add_comm, Nat.add_assoc, Nat.add_left_comm]
      · intro p
        rw [hloop, ihl p, hfilter, hfm, List.filter_cons_of_pos (by exact hrem),
          List.map_cons]
        by_cases hpb : p = b.path
        · have hnm : p ∉ ((rest.filterMap (fun j => backups[j]?)).filter
              (fun x => removable fs x.path)).map Backup.path := by
            rw [hpb]
            intro hmem
            exact hbp (List.map_subset Backup.path (List.filter_sublist _).subset hmem)
          rw [if_neg hnm, if_pos (by rw [hpb]; exact List.mem_cons_self _ _), hpb]
          exact lookupEntry_eraseEntry_self _ _
        · by_cases hpm : p ∈ ((rest.filterMap (fun j => backups[j]?)).filter
              (fun x => removable fs x.path)).map Backup.path
          · rw [if_pos hpm, if_pos (List.mem_cons_of_mem _ hpm)]
          · rw [if_neg hpm, if_neg (by
              intro hc
              rcases List.mem_cons.mp hc with hc | hc
              · exact hpb hc
              · exact hpm hc)]
            exact lookupEntry_eraseEntry_ne _ _ _ hpb
      · rw [hloop, ihw]
    · have hrem0 : removable fs b.path = false := Bool.not_eq_true _ ▸ hrem
      have hrf := removeFile_none_of_not_removable hrem0
      have hloop : removeLoop backups (i :: rest) fs n ms =
          removeLoop backups rest fs n (ms ++ [.deleteFailed b.name]) := by
        conv_lhs => unfold removeLoop
        rw [hb]
        dsimp only
        rw [hrf]
      obtain ⟨ihc, ihl, ihw⟩ := ih fs n (ms ++ [.deleteFailed b.name]) hvr hndr
      refine ⟨?_, ?_, ?_⟩
      · rw [hloop, ihc, hfm, List.filter_cons_of_neg (by rw [hrem0]; exact Bool.noConfusion)]
      · intro p
        rw [hloop, ihl p, hfm, List.filter_cons_of_neg (by rw [hrem0]; exact Bool.noConfusion)]
      · rw [hloop, ihw]

/-- C7: an empty selection performs no filesystem mutation and reports zero
deletions; for a confirmed non-empty selection of distinct backups, the loop
attempts every selected backup even when some removals fail — exactly the
removable selected paths disappear — and the reported count equals the number
of removals that succeeded. -/
theorem c7_deleteBackups :
    (∀ (backups : List Backup) (confirm : Option String) (fs : FS),
      deleteBackups backups [] confirm fs = ⟨fs, 0, [.noBackupsSelected]⟩) ∧
    (∀ (backups : List Backup) (selected : List Nat) (c : String) (fs : FS),
      selected ≠ [] → strToLower c = "y" →
      (∀ i ∈ selected, i < backups.length) →
      ((selected.filterMap (fun i => backups[i]?)).map Backup.path).Nodup →
      (deleteBackups backups selected (some c) fs).deletedCount =
        ((selected.filterMap (fun i => backups[i]?)).filter
          (fun b => removable fs b.path)).length ∧
      ∀ p, lookupEntry (deleteBackups backups selected (some c) fs).fs.entries p =
        if p ∈ ((selected.filterMap (fun i => backups[i]?)).filter
            (fun b => removable fs b.path)).map Backup.path then none
        else lookupEntry fs.entries p) := by
  constructor
  · intro backups confirm fs
    rfl
  · intro backups selected c fs hne hy hvalid hnd
    have hemp : selected.isEmpty = false := by
      cases selected with
      | nil => exact absurd rfl hne
      | cons a l => rfl
    obtain ⟨hc, hl, -⟩ := removeLoop_spec backups selected fs 0 [] hvalid hnd
    have hred : deleteBackups backups selected (some c) fs =
        ⟨(removeLoop backups selected fs 0 []).1,
          (removeLoop backups selected fs 0 []).2.1,
          (removeLoop backups selected fs 0 []).2.2 ++
            if 0 < (removeLoop backups selected fs 0 []).2.1
              then [.deletedOk (removeLoop backups selected fs 0 []).2.1] else []⟩ := by
      unfold deleteBackups
      rw [hemp]
      rw [if_neg (fun h => Bool.noConfusion h)]
      dsimp only
      rw [if_neg (fun hne2 => hne2 hy)]
    rw [hred]
    exact ⟨by rw [hc]; simp, hl⟩

/-- Witness for C7: of three selected backups the middle one is already gone
from disk; its removal fails, the other two are still removed, the count is
2, and the empty-selection branch leaves the filesystem untouched. -/
theorem c7_deleteBackups_witness :
    deleteBackups [⟨"a", ["b", "1.sav"], 1⟩] [] (some "y")
        ⟨[(["b"], Entry.dir 0), (["b", "1.sav"], Entry.file [1] 1 none)], [], [], []⟩
      = ⟨⟨[(["b"], Entry.dir 0), (["b", "1.sav"], Entry.file [1] 1 none)], [], [], []⟩,
          0, [.noBackupsSelected]⟩ ∧
    (deleteBackups [⟨"a", ["b", "1.sav"], 1⟩, ⟨"gone", ["b", "2.sav"], 2⟩,
        ⟨"c", ["b", "3.sav"], 3⟩] [0, 1, 2] (some "y")
        ⟨[(["b"], Entry.dir 0), (["b", "1.sav"], Entry.file [1] 1 none),
          (["b", "3.sav"], Entry.file [3] 3 none)], [], [], []⟩).deletedCount = 2 ∧
    lookupEntry (deleteBackups [⟨"a", ["b", "1.sav"], 1⟩, ⟨"gone", ["b", "2.sav"], 2⟩,
        ⟨"c", ["b", "3.sav"], 3⟩] [0, 1, 2] (some "y")
        ⟨[(["b"], Entry.dir 0), (["b", "1.sav"], Entry.file [1] 1 none),
          (["b", "3.sav"], Entry.file [3] 3 none)], [], [], []⟩).fs.entries
      ["b", "1.sav"] = none ∧
    lookupEntry (deleteBackups [⟨"a", ["b", "1.sav"], 1⟩, ⟨"gone", ["b", "2.sav"], 2⟩,
        ⟨"c", ["b", "3.sav"], 3⟩] [0, 1, 2] (some "y")
        ⟨[(["b"], Entry.dir 0), (["b", "1.sav"], Entry.file [1] 1 none),
          (["b", "3.sav"], Entry.file [3] 3 none)], [], [], []⟩).fs.entries
      ["b", "3.sav"] = none ∧
    lookupEntry (deleteBackups [⟨"a", ["b", "1.sav"], 1⟩, ⟨"gone", ["b", "2.sav"], 2⟩,
        ⟨"c", ["b", "3.sav"], 3⟩] [0, 1, 2] (some "y")
        ⟨[(["b"], Entry.dir 0), (["b", "1.sav"], Entry.file [1] 1 none),
          (["b", "3.sav"], Entry.file [3] 3 none)], [], [], []⟩).fs.entries
      ["b"] = some (Entry.dir 0) := by
  refine ⟨c7_deleteBackups.1 _ _ _, ?_, ?_, ?_, ?_⟩
  · exact ((c7_deleteBackups.2 [⟨"a", ["b", "1.sav"], 1⟩, ⟨"gone", ["b", "2.sav"], 2⟩,
      ⟨"c", ["b", "3.sav"], 3⟩] [0, 1, 2] "y"
      ⟨[(["b"], Entry.dir 0), (["b", "1.sav"], Entry.file [1] 1 none),
        (["b", "3.sav"], Entry.file [3] 3 none)], [], [], []⟩
      (by decide) (by decide) (by decide) (by decide)).1).trans (by decide)
  · exact (((c7_deleteBackups.2 [⟨"a", ["b", "1.sav"], 1⟩, ⟨"gone", ["b", "2.sav"], 2⟩,
      ⟨"c", ["b", "3.sav"], 3⟩] [0, 1, 2] "y"
      ⟨[(["b"], Entry.dir 0), (["b", "1.sav"], Entry.file [1] 1 none),
        (["b", "3.sav"], Entry.file [3] 3 none)], [], [], []⟩
      (by decide) (by decide) (by decide) (by decide)).2) ["b", "1.sav"]).trans (by decide)
  · exact (((c7_deleteBackups.2 [⟨"a", ["b", "1.sav"], 1⟩, ⟨"gone", ["b", "2.sav"], 2⟩,
      ⟨"c", ["b", "3.sav"], 3⟩] [0, 1, 2] "y"
      ⟨[(["b"], Entry.dir 0), (["b", "1.sav"], Entry.file [1] 1 none),
        (["b", "3.sav"], Entry.file [3] 3 none)], [], [], []⟩
      (by decide) (by decide) (by decide) (by decide)).2) ["b", "3.sav"]).trans (by decide)
  · exact (((c7_deleteBackups.2 [⟨"a", ["b", "1.sav"], 1⟩, ⟨"gone", ["b", "2.sav"], 2⟩,
      ⟨"c", ["b", "3.sav"], 3⟩] [0, 1, 2] "y"
      ⟨[(["b"], Entry.dir 0), (["b", "1.sav"], Entry.file [1] 1 none),
        (["b", "3.sav"], Entry.file [3] 3 none)], [], [], []⟩
      (by decide) (by decide) (by decide) (by decide)).2) ["b"]).trans (by decide)

/-! ### Claim C9 -/

/-- C9 (amended): every `getFileCreationTime` variant fails exactly when the
stat fails.  The syscall Windows variant returns the native creation time
when the metadata is exposed and the modification time otherwise; but the
variant in `file_info_windows.go` (like the non-Windows one) always returns
the modification time, even when creation metadata is available. -/
theorem c9_creationTime :
    (∀ (fs : FS) (p : FPath), (getFileCreationTime fs p).isSome = statOk fs p) ∧
    (∀ (fs : FS) (p : FPath), (getFileCreationTimeSys fs p).isSome = statOk fs p) ∧
    (∀ (fs : FS) (p : FPath) (d : List Nat) (m c : Nat),
      p ∉ fs.statDenied → lookupEntry fs.entries p = some (.file d m (some c)) →
      getFileCreationTimeSys fs p = some c ∧ getFileCreationTime fs p = some m) ∧
    (∀ (fs : FS) (p : FPath) (d : List Nat) (m : Nat),
      p ∉ fs.statDenied → lookupEntry fs.entries p = some (.file d m none) →
      getFileCreationTimeSys fs p = some m ∧ getFileCreationTime fs p = some m) := by
  refine ⟨?_, ?_, ?_, ?_⟩
  · intro fs p
    unfold getFileCreationTime statOk
    rcases statPath fs p with e | - | - <;> rfl
  · intro fs p
    unfold getFileCreationTimeSys statOk
    rcases statPath fs p with e | - | -
    · rcases e with ⟨d, m, - | c⟩ | m <;> rfl
    · rfl
    · rfl
  · intro fs p d m c hsd hl
    have hstat : statPath fs p = .ok (.file d m (some c)) := by
      unfold statPath
      rw [if_neg hsd, hl]
    unfold getFileCreationTimeSys getFileCreationTime
    rw [hstat]
    exact ⟨rfl, rfl⟩
  · intro fs p d m hsd hl
    have hstat : statPath fs p = .ok (.file d m none) := by
      unfold statPath
      rw [if_neg hsd, hl]
    unfold getFileCreationTimeSys getFileCreationTime
    rw [hstat]
    exact ⟨rfl, rfl⟩

/-- Witness for C9: concrete lookups on a two-file system — a denied stat
fails both variants; with creation metadata 5 and modification time 7 the
syscall variant returns 5 and the simple variant 7; without metadata both
return the modification time. -/
theorem c9_creationTime_witness :
    (getFileCreationTime ⟨[(["f"], Entry.file [0] 7 (some 5))], [["g"]], [], []⟩ ["g"]).isSome
      = statOk ⟨[(["f"], Entry.file [0] 7 (some 5))], [["g"]], [], []⟩ ["g"] ∧
    (getFileCreationTimeSys ⟨[(["f"], Entry.file [0] 7 (some 5))], [["g"]], [], []⟩ ["f"]).isSome
      = statOk ⟨[(["f"], Entry.file [0] 7 (some 5))], [["g"]], [], []⟩ ["f"] ∧
    (getFileCreationTimeSys ⟨[(["f"], Entry.file [0] 7 (some 5))], [], [], []⟩ ["f"] = some 5 ∧
      getFileCreationTime ⟨[(["f"], Entry.file [0] 7 (some 5))], [], [], []⟩ ["f"] = some 7) ∧
    (getFileCreationTimeSys ⟨[(["f"], Entry.file [0] 7 none)], [], [], []⟩ ["f"] = some 7 ∧
      getFileCreationTime ⟨[(["f"], Entry.file [0] 7 none)], [], [], []⟩ ["f"] = some 7) :=
  ⟨c9_creationTime.1 _ _, c9_creationTime.2.1 _ _,
    c9_creationTime.2.2.1 _ ["f"] [0] 7 5 (by decide) (by decide),
    c9_creationTime.2.2.2 _ ["f"] [0] 7 (by decide) (by decide)⟩

/-- Counterexample to C9 as stated: a file whose Win32 creation metadata (5)
is exposed and differs from its modification time (7); the
`file_info_windows.go` implementation still returns the modification time 7,
not the creation time the claim promises on such a platform (the syscall
variant does return 5). -/
theorem c9_claim_counterexample :
    getFileCreationTime ⟨[(["f"], Entry.file [0] 7 (some 5))], [], [], []⟩ ["f"] = some 7 ∧
    getFileCreationTimeSys ⟨[(["f"], Entry.file [0] 7 (some 5))], [], [], []⟩ ["f"] = some 5 ∧
    (7 : Nat) ≠ 5 :=
  ⟨by decide, by decide, by decide⟩

/-! ### Claim C8 -/

theorem isNotExist_true_elim {fs : FS} {d : FPath} (h : isNotExist fs d = true) :
    d ∉ fs.statDenied ∧ lookupEntry fs.entries d = none := by
  unfold isNotExist statPath at h
  by_cases h1 : d ∈ fs.statDenied
  · rw [if_pos h1] at h
    exact Bool.noConfusion h
  · rcases h2 : lookupEntry fs.entries d with - | e
    · exact ⟨h1, rfl⟩
    · rw [if_neg h1, h2] at h
      exact Bool.noConfusion h

theorem mkdirAll_fresh {fs fs1 : FS} {d : FPath} {now : Nat}
    (hl : lookupEntry fs.entries d = none)
    (h : mkdirAll fs d now = some fs1) :
    fs1.entries = setEntry fs.entries d (.dir now) ∧
    fs1.statDenied = fs.statDenied := by
  unfold mkdirAll at h
  split at h
  · exact Option.noConfusion h
  · simp only [hl] at h
    obtain rfl := Option.some.inj h
    exact ⟨rfl, rfl⟩

theorem mkdirAll_denied {fs : FS} {d : FPath} {now : Nat} (hw : d ∈ fs.writeDenied) :
    mkdirAll fs d now = none := by
  unfold mkdirAll
  rw [if_pos hw]

theorem mkdirAll_isDirAt {fs fs1 : FS} {d : FPath} {now : Nat}
    (h : mkdirAll fs d now = some fs1) : isDirAt fs1 d = true := by
  unfold mkdirAll at h
  split at h
  · exact Option.noConfusion h
  · split at h
    · rename_i m heq
      obtain rfl := Option.some.inj h
      unfold isDirAt
      rw [heq]
    · exact Option.noConfusion h
    · obtain rfl := Option.some.inj h
      unfold isDirAt
      rw [show lookupEntry (setEntry fs.entries d (.dir now)) d = some (.dir now) from
        lookupEntry_setEntry_self ..]

theorem isNotExist_congr {fs fs1 : FS} {d : FPath}
    (hl : lookupEntry fs1.entries d = lookupEntry fs.entries d)
    (hs : fs1.statDenied = fs.statDenied) : isNotExist fs1 d = isNotExist fs d := by
  unfold isNotExist statPath
  rw [hl, hs]

theorem ensureBackupDir_facts {fs fs1 : FS} {d : FPath} {now : Nat}
    (h : ensureBackupDir fs d now = some fs1) :
    isNotExist fs1 d = false ∧
    (isNotExist fs d = true → lookupEntry fs1.entries d = some (.dir now)) ∧
    (isNotExist fs d = false → fs1 = fs) := by
  unfold ensureBackupDir at h
  by_cases he : isNotExist fs d = true
  · rw [if_pos he] at h
    obtain ⟨hsd, hl⟩ := isNotExist_true_elim he
    obtain ⟨hent, hstat⟩ := mkdirAll_fresh hl h
    have hl1 : lookupEntry fs1.entries d = some (.dir now) := by
      rw [hent]
      exact lookupEntry_setEntry_self ..
    refine ⟨?_, fun _ => hl1, fun hf => by rw [hf] at he; exact Bool.noConfusion he⟩
    unfold isNotExist statPath
    rw [hstat, if_neg hsd, hl1]
  · rw [if_neg he] at h
    obtain rfl := Option.some.inj h
    exact ⟨Bool.not_eq_true _ ▸ he, fun ht => absurd ht he, fun _ => rfl⟩

/-- C8 (amended): after every successful return of the stat-guarded load
(main.go:152-159) the stat of the returned configuration's backup directory
no longer reports not-exist — when the directory was missing it has been
created as a directory (provided the backup directory is not the default
config path itself), and a denied creation makes the load fail — but an
already-present non-directory entry is accepted silently, so a successful
load does not guarantee that a directory exists there.  The second variant
(main.go:748-752) runs `os.MkdirAll` unconditionally, and its successful
load of an existing configuration does guarantee a directory at
`backup_dir`. -/
theorem c8_backupDirInvariant :
    (∀ (decode : List Nat → Option Config) (encode : Config → List Nat)
        (dp : FPath) (defaults : Config) (now : Nat) (fs : FS)
        (c : Config) (p : FPath) (fs1 : FS),
      loadConfig decode encode dp defaults now fs = some (c, p, fs1) →
      isNotExist fs1 c.backupDir = false) ∧
    (∀ (decode : List Nat → Option Config) (encode : Config → List Nat)
        (dp : FPath) (defaults : Config) (now : Nat) (fs : FS)
        (c : Config) (p : FPath) (fs1 : FS),
      loadConfig decode encode dp defaults now fs = some (c, p, fs1) →
      isNotExist fs c.backupDir = true → c.backupDir ≠ dp →
      isDirAt fs1 c.backupDir = true) ∧
    (∀ (decode : List Nat → Option Config) (encode : Config → List Nat)
        (dp : FPath) (defaults : Config) (now : Nat) (fs : FS) (bs : List Nat) (c : Config),
      readFileE fs dp = .ok bs → decode bs = some c → c.configFilePath = [] →
      isNotExist fs c.backupDir = true → c.backupDir ∈ fs.writeDenied →
      loadConfig decode encode dp defaults now fs = none) ∧
    (∀ (decode : List Nat → Option Config) (dp : FPath) (now : Nat) (fs : FS)
        (c : Config) (p : FPath) (fs1 : FS),
      loadConfigV2 decode dp now fs = .ok c p fs1 →
      isDirAt fs1 c.backupDir = true) := by
  refine ⟨?_, ?_, ?_, ?_⟩
  · intro decode encode dp defaults now fs c p fs1 h
    unfold loadConfig at h
    split at h
    · split at h
      · exact Option.noConfusion h
      · dsimp only at h
        split at h
        · exact Option.noConfusion h
        · rename_i fs2 hens
          obtain heq := Option.some.inj h
          injection heq with h1 h23
          injection h23 with h2 h3
          subst h1; subst h3
          exact (ensureBackupDir_facts hens).1
    · dsimp only at h
      split at h
      · exact Option.noConfusion h
      · split at h
        · exact Option.noConfusion h
        · rename_i fs2 hw fs3 hens
          obtain heq := Option.some.inj h
          injection heq with h1 h23
          injection h23 with h2 h3
          subst h1; subst h3
          exact (ensureBackupDir_facts hens).1
    · exact Option.noConfusion h
  · intro decode encode dp defaults now fs c p fs1 h hne hnd
    unfold loadConfig at h
    split at h
    · split at h
      · exact Option.noConfusion h
      · dsimp only at h
        split at h
        · exact Option.noConfusion h
        · rename_i fs2 hens
          obtain heq := Option.some.inj h
          injection heq with h1 h23
          injection h23 with h2 h3
          subst h1; subst h3
          unfold isDirAt
          rw [(ensureBackupDir_facts hens).2.1 hne]
    · rename_i bs hrd
      dsimp only at h
      split at h
      · exact Option.noConfusion h
      · rename_i fs2 hw
        split at h
        · exact Option.noConfusion h
        · rename_i fs3 hens
          obtain heq := Option.some.inj h
          injection heq with h1 h23
          injection h23 with h2 h3
          subst h3
          rw [← h1] at hne hnd ⊢
          dsimp only at hne hnd ⊢
          have hpres : isNotExist fs2 defaults.backupDir = isNotExist fs defaults.backupDir := by
            refine isNotExist_congr ?_ (writeFile_denies hw).1
            exact writeFile_lookup_ne hw hnd
          unfold isDirAt
          rw [(ensureBackupDir_facts hens).2.1 (by rw [hpres]; exact hne)]
    · exact Option.noConfusion h
  · intro decode encode dp defaults now fs bs c hrd hdec hcf hne hw
    unfold loadConfig
    rw [hrd]
    dsimp only
    rw [hdec]
    dsimp only
    rw [if_neg (by rw [hcf]; exact fun hand => hand.1 rfl)]
    dsimp only
    have hens : ensureBackupDir fs c.backupDir now = none := by
      unfold ensureBackupDir
      rw [if_pos hne, mkdirAll_denied hw]
    rw [hens]
  · intro decode dp now fs c p fs1 h
    unfold loadConfigV2 at h
    split at h
    · split at h
      · exact LoadV2Result.noConfusion h
      · split at h
        · exact LoadV2Result.noConfusion h
        · rename_i fs2 hmk
          injection h with h1 h2 h3
          subst h1; subst h3
          exact mkdirAll_isDirAt hmk
    · exact LoadV2Result.noConfusion h

/-- Witness for C8: loading with a missing backup directory creates it (the
stat no longer reports not-exist and a directory entry is present); with the
creation denied the load fails; and the unconditional-MkdirAll variant also
ends with a directory present. -/
theorem c8_backupDirInvariant_witness :
    isNotExist
      (⟨[(["cfg.json"], Entry.file [0] 0 none), (["bk"], Entry.dir 3)], [], [], []⟩ : FS)
      ["bk"] = false ∧
    isDirAt
      (⟨[(["cfg.json"], Entry.file [0] 0 none), (["bk"], Entry.dir 3)], [], [], []⟩ : FS)
      ["bk"] = true ∧
    loadConfig (fun _ => some ⟨["s"], ["bk"], true, []⟩) (fun _ => []) ["cfg.json"]
        ⟨["s"], ["bk"], true, []⟩ 3
        ⟨[(["cfg.json"], Entry.file [0] 0 none)], [], [], [["bk"]]⟩ = none ∧
    isDirAt
      (⟨[(["cfg.json"], Entry.file [0] 0 none), (["bk"], Entry.dir 3)], [], [], []⟩ : FS)
      ["bk"] = true := by
  refine ⟨?_, ?_, ?_, ?_⟩
  · exact c8_backupDirInvariant.1 (fun _ => some ⟨["s"], ["bk"], true, []⟩) (fun _ => [])
      ["cfg.json"] ⟨["s"], ["bk"], true, []⟩ 3
      ⟨[(["cfg.json"], Entry.file [0] 0 none)], [], [], []⟩
      ⟨["s"], ["bk"], true, []⟩ ["cfg.json"]
      ⟨[(["cfg.json"], Entry.file [0] 0 none), (["bk"], Entry.dir 3)], [], [], []⟩
      (by decide)
  · exact c8_backupDirInvariant.2.1 (fun _ => some ⟨["s"], ["bk"], true, []⟩) (fun _ => [])
      ["cfg.json"] ⟨["s"], ["bk"], true, []⟩ 3
      ⟨[(["cfg.json"], Entry.file [0] 0 none)], [], [], []⟩
      ⟨["s"], ["bk"], true, []⟩ ["cfg.json"]
      ⟨[(["cfg.json"], Entry.file [0] 0 none), (["bk"], Entry.dir 3)], [], [], []⟩
      (by decide) (by decide) (by decide)
  · exact c8_backupDirInvariant.2.2.1 (fun _ => some ⟨["s"], ["bk"], true, []⟩) (fun _ => [])
      ["cfg.json"] ⟨["s"], ["bk"], true, []⟩ 3
      ⟨[(["cfg.json"], Entry.file [0] 0 none)], [], [], [["bk"]]⟩ [0]
      ⟨["s"], ["bk"], true, []⟩
      (by rfl) (by rfl) (by rfl) (by decide) (by decide)
  · exact c8_backupDirInvariant.2.2.2 (fun _ => some ⟨["s"], ["bk"], true, []⟩)
      ["cfg.json"] 3 ⟨[(["cfg.json"], Entry.file [0] 0 none)], [], [], []⟩
      ⟨["s"], ["bk"], true, []⟩ ["cfg.json"]
      ⟨[(["cfg.json"], Entry.file [0] 0 none), (["bk"], Entry.dir 3)], [], [], []⟩
      (by decide)

/-- Counterexample to C8 as stated: a regular file occupies `backup_dir`, so
`os.Stat` succeeds and the stat-guarded load skips `os.MkdirAll` and returns
success — yet no directory exists at `backup_dir` after the successful
load. -/
theorem c8_claim_counterexample :
    loadConfig (fun _ => some ⟨["s"], ["bk"], true, []⟩) (fun _ => []) ["cfg.json"]
        ⟨["s"], ["bk"], true, []⟩ 3
        ⟨[(["cfg.json"], Entry.file [0] 0 none), (["bk"], Entry.file [7] 1 none)], [], [], []⟩
      = some (⟨["s"], ["bk"], true, []⟩, ["cfg.json"],
          ⟨[(["cfg.json"], Entry.file [0] 0 none), (["bk"], Entry.file [7] 1 none)],
            [], [], []⟩) ∧
    isDirAt ⟨[(["cfg.json"], Entry.file [0] 0 none), (["bk"], Entry.file [7] 1 none)],
        [], [], []⟩ ["bk"] = false :=
  ⟨by decide, by decide⟩
